import Mathlib

/-!
INMET weather-table scraper (`src/index.js`)

A shallow embedding of the table extractor that runs inside `page.evaluate`
(`scrapeWeatherData`, lines 77-184), of the cache lookup / store around it
(lines 33-40 and 186-189) and of the `GET /api/weather/:stationCode` handler
(lines 229-260), followed by the properties proved about them.

Conventions of the embedding:

* a DOM table is the list of its `tr` descendants in document order, each row
  being the list of its `th` / `td` cells with their `textContent`; tables are
  not nested;
* JavaScript strings are Lean strings, `undefined` is `none`;
* a JavaScript number is an IEEE 754 double, written as an odd significand
  times a power of two; numeric strings are rounded to the nearest double;
* the wall clock is an explicit number of milliseconds;
* an object used as a dictionary is an association list with JavaScript's
  assignment semantics (assigning to an existing key overwrites its value).
-/

namespace INMET

/-! ## JavaScript string primitives -/

/-- The code points removed by `String.prototype.trim` (ECMAScript `WhiteSpace`
and `LineTerminator`). -/
def isJsWhiteSpace (c : Char) : Bool :=
  let n := c.toNat
  n == 0x09 || n == 0x0A || n == 0x0B || n == 0x0C || n == 0x0D || n == 0x20 ||
  n == 0xA0 || n == 0x1680 || (0x2000 ≤ n && n ≤ 0x200A) || n == 0x2028 ||
  n == 0x2029 || n == 0x202F || n == 0x205F || n == 0x3000 || n == 0xFEFF

/-- Drops leading white space (`TrimString(s, start)`). -/
def trimStart (cs : List Char) : List Char := cs.dropWhile isJsWhiteSpace

/-- Drops trailing white space (`TrimString(s, end)`). -/
def trimEnd (cs : List Char) : List Char := (cs.reverse.dropWhile isJsWhiteSpace).reverse

/-- Embeds `String.prototype.trim`. -/
def jsTrim (s : String) : String := String.mk (trimEnd (trimStart s.data))

/-- Embeds `x || d` for a string-or-undefined `x`: the empty string and
`undefined` are falsy. -/
def orElseStr (x : Option String) (d : String) : String :=
  match x with
  | some s => if s = "" then d else s
  | none => d

/-! ## JavaScript numbers, `Number(string)` and `parseFloat` -/

/-- A JavaScript Number (an IEEE 754 double) as produced from a numeric
string. `finite neg m e` is the double of value `(-1)^neg * m * 2^e`, written
with `m` odd, or with `m = 0` and `e = 0` for the two zeros; every finite
double has exactly one such form. -/
inductive JsNumber where
  | finite (negative : Bool) (significand : Nat) (exponent : Int)
  | infinity (negative : Bool)
  | nan
  deriving DecidableEq, Repr

/-- Tests `2 ^ k ≤ n / d` (`x <<< j` is `x * 2 ^ j`). -/
def reachesPowerOfTwo (n d : Nat) (k : Int) : Bool :=
  if 0 ≤ k then decide (d <<< k.toNat ≤ n) else decide (d ≤ n <<< (-k).toNat)

/-- Bisection for the largest `k` with `lo ≤ k < hi` and `2 ^ k ≤ n / d`; `lo`
when there is none. -/
def searchExponent (n d : Nat) : Nat → Int → Int → Int
  | 0, lo, _ => lo
  | fuel + 1, lo, hi =>
    if hi ≤ lo + 1 then lo
    else if reachesPowerOfTwo n d ((lo + hi) / 2) then
      searchExponent n d fuel ((lo + hi) / 2) hi
    else searchExponent n d fuel lo ((lo + hi) / 2)

/-- The binary exponent of `n / d` within the range of doubles: the largest
`k` from -1022 to 1024 with `2 ^ k ≤ n / d`, and -1022 (the exponent of the
subnormal doubles) when `n / d` is below `2 ^ -1022`. -/
def binaryExponent (n d : Nat) : Int := searchExponent n d 12 (-1022) 1025

/-- The fraction `n / d` divided by `2 ^ k`, as numerator and denominator. -/
def scaleDown (n d : Nat) (k : Int) : Nat × Nat :=
  if 0 ≤ k then (n, d <<< k.toNat) else (n <<< (-k).toNat, d)

/-- The integer nearest to `num / den`, the even one of the two on a tie. -/
def roundHalfEven (num den : Nat) : Nat :=
  if 2 * (num % den) < den then num / den
  else if den < 2 * (num % den) then num / den + 1
  else if (num / den) % 2 = 0 then num / den
  else num / den + 1

/-- Rewrites `m * 2 ^ e` with an odd `m` (zero as `0 * 2 ^ 0`). -/
def oddPart : Nat → Nat → Int → Nat × Int
  | 0, m, e => (m, e)
  | fuel + 1, m, e =>
    if m = 0 then (0, 0)
    else if m % 2 = 0 then oddPart fuel (m / 2) (e + 1) else (m, e)

/-- The Number value of the mathematical value `(-1)^neg * n / d` (ECMAScript
`RoundMVResult`, IEEE 754 round to nearest, ties to even): with `e` the
exponent of the unit in the last place (53 significant bits, never below
`2 ^ -1074`), the value is rounded to a multiple `m * 2 ^ e`; a result of
`2 ^ 1024` or more is the infinity of that sign. -/
def roundToDouble (negative : Bool) (n d : Nat) : JsNumber :=
  if 971 < binaryExponent n d - 52 ∨
      (binaryExponent n d - 52 = 971 ∧
        2 ^ 53 ≤ roundHalfEven (scaleDown n d (binaryExponent n d - 52)).1
          (scaleDown n d (binaryExponent n d - 52)).2) then
    JsNumber.infinity negative
  else
    JsNumber.finite negative
      (oddPart 64 (roundHalfEven (scaleDown n d (binaryExponent n d - 52)).1
        (scaleDown n d (binaryExponent n d - 52)).2) (binaryExponent n d - 52)).1
      (oddPart 64 (roundHalfEven (scaleDown n d (binaryExponent n d - 52)).1
        (scaleDown n d (binaryExponent n d - 52)).2) (binaryExponent n d - 52)).2

/-- The Number value of the decimal `(-1)^neg * m * 10^e`. -/
def decimalToNumber (negative : Bool) (m : Nat) (e : Int) : JsNumber :=
  if 0 ≤ e then roundToDouble negative (m * 10 ^ e.toNat) 1
  else roundToDouble negative m (10 ^ (-e).toNat)

/-- Tests for `0`..`9`. -/
def isDecimalDigit (c : Char) : Bool := 48 ≤ c.toNat && c.toNat ≤ 57

/-- Tests for a hexadecimal digit. -/
def isHexDigit (c : Char) : Bool :=
  isDecimalDigit c || (97 ≤ c.toNat && c.toNat ≤ 102) || (65 ≤ c.toNat && c.toNat ≤ 70)

/-- Tests for `0`..`7`. -/
def isOctalDigit (c : Char) : Bool := 48 ≤ c.toNat && c.toNat ≤ 55

/-- Tests for `0` or `1`. -/
def isBinaryDigit (c : Char) : Bool := c.toNat == 48 || c.toNat == 49

/-- The value of a digit character (decimal or hexadecimal). -/
def digitValue (c : Char) : Nat :=
  if 97 ≤ c.toNat then c.toNat - 87 else if 65 ≤ c.toNat then c.toNat - 55 else c.toNat - 48

/-- The mathematical value of a digit sequence in the given radix. -/
def digitsValue (radix : Nat) (ds : List Char) : Nat :=
  ds.foldl (fun n c => radix * n + digitValue c) 0

/-- The characters of the literal `Infinity`. -/
def infinityChars : List Char := ['I', 'n', 'f', 'i', 'n', 'i', 't', 'y']

/-- Reads a run of decimal digits that must not be empty, as the digits of an
exponent with the given sign: the exponent and the rest of the input, or, when
there is no digit, exponent 0 and the fallback input. -/
def readExponentDigits (negative : Bool) (fallback ds : List Char) : Int × List Char :=
  if (ds.takeWhile isDecimalDigit).isEmpty then (0, fallback)
  else if negative then
    (-(digitsValue 10 (ds.takeWhile isDecimalDigit) : Int), ds.dropWhile isDecimalDigit)
  else ((digitsValue 10 (ds.takeWhile isDecimalDigit) : Int), ds.dropWhile isDecimalDigit)

/-- Reads an optional `ExponentPart` (`e` or `E`, an optional sign, at least
one digit) at the head of the input: the exponent read (0 when there is none)
and the remaining input. -/
def readExponent (cs : List Char) : Int × List Char :=
  match cs with
  | [] => (0, cs)
  | c :: rest =>
    if c = 'e' ∨ c = 'E' then
      match rest with
      | [] => (0, cs)
      | s :: r =>
        if s = '-' then readExponentDigits true cs r
        else if s = '+' then readExponentDigits false cs r
        else readExponentDigits false cs rest
    else (0, cs)

/-- Reads the digits, optional fraction and optional exponent of a
`StrUnsignedDecimalLiteral` (`d+ . d* exp?`, `. d+ exp?` or `d+ exp?`) at the
head of the input. -/
def readDigitsLiteral (negative : Bool) (cs : List Char) : Option (JsNumber × List Char) :=
  match cs.dropWhile isDecimalDigit with
  | [] =>
    if (cs.takeWhile isDecimalDigit).isEmpty then none
    else some (decimalToNumber negative (digitsValue 10 (cs.takeWhile isDecimalDigit)) 0, [])
  | c :: r =>
    if c = '.' then
      if (cs.takeWhile isDecimalDigit).isEmpty && (r.takeWhile isDecimalDigit).isEmpty then none
      else
        some (decimalToNumber negative
            (digitsValue 10 (cs.takeWhile isDecimalDigit ++ r.takeWhile isDecimalDigit))
            ((readExponent (r.dropWhile isDecimalDigit)).1 -
              ((r.takeWhile isDecimalDigit).length : Int)),
          (readExponent (r.dropWhile isDecimalDigit)).2)
    else if (cs.takeWhile isDecimalDigit).isEmpty then none
    else
      some (decimalToNumber negative (digitsValue 10 (cs.takeWhile isDecimalDigit))
          (readExponent (c :: r)).1,
        (readExponent (c :: r)).2)

/-- Reads the longest head of the input that is a `StrUnsignedDecimalLiteral`
(`Infinity` or digits with an optional fraction and exponent): its value with
the given sign and the remaining input, or `none` when no head of the input is
one. -/
def readUnsignedDecimal (negative : Bool) (cs : List Char) : Option (JsNumber × List Char) :=
  if infinityChars.isPrefixOf cs then some (JsNumber.infinity negative, cs.drop 8)
  else readDigitsLiteral negative cs

/-- Reads the longest head of the input that is a `StrDecimalLiteral` (an
optional sign and a `StrUnsignedDecimalLiteral`). -/
def readDecimal (cs : List Char) : Option (JsNumber × List Char) :=
  match cs with
  | [] => readUnsignedDecimal false cs
  | c :: r =>
    if c = '+' then readUnsignedDecimal false r
    else if c = '-' then readUnsignedDecimal true r
    else readUnsignedDecimal false cs

/-- Reads a whole `NonDecimalIntegerLiteral` (`0x`, `0o` or `0b` and at least
one digit of that radix, no sign). -/
def readNonDecimal (cs : List Char) : Option JsNumber :=
  match cs with
  | z :: k :: d :: ds =>
    if z = '0' then
      if k = 'x' ∨ k = 'X' then
        if (d :: ds).all isHexDigit then some (roundToDouble false (digitsValue 16 (d :: ds)) 1)
        else none
      else if k = 'o' ∨ k = 'O' then
        if (d :: ds).all isOctalDigit then some (roundToDouble false (digitsValue 8 (d :: ds)) 1)
        else none
      else if k = 'b' ∨ k = 'B' then
        if (d :: ds).all isBinaryDigit then some (roundToDouble false (digitsValue 2 (d :: ds)) 1)
        else none
      else none
    else none
  | _ => none

/-- Embeds `Number(s)` for a string `s` (ECMAScript `StringToNumber`): white
space is trimmed, the empty string is `0`, a whole `StrDecimalLiteral` or
`NonDecimalIntegerLiteral` has its value, anything else is `NaN`. -/
def jsToNumber (s : String) : JsNumber :=
  let cs := trimEnd (trimStart s.data)
  if cs.isEmpty then JsNumber.finite false 0 0
  else
    match readNonDecimal cs with
    | some n => n
    | none =>
      match readDecimal cs with
      | some (n, []) => n
      | _ => JsNumber.nan

/-- Embeds the global `isNaN(s)` applied to a string. -/
def jsIsNaN (s : String) : Bool :=
  match jsToNumber s with
  | JsNumber.nan => true
  | _ => false

/-- Embeds the global `parseFloat(s)`: leading white space is skipped and the
longest head that is a `StrDecimalLiteral` gives the value; `NaN` when there is
none. -/
def jsParseFloat (s : String) : JsNumber :=
  match readDecimal (trimStart s.data) with
  | some (n, _) => n
  | none => JsNumber.nan

/-! ## The DOM snapshot -/

/-- A `th` or `td` element with its `textContent`. -/
structure Cell where
  isTh : Bool
  text : String
  deriving DecidableEq, Repr

/-- A `tr` element: whether it sits inside a `thead`, inside a `tbody`, and
its `th` / `td` cells in document order. -/
structure Row where
  inThead : Bool
  inTbody : Bool
  cells : List Cell
  deriving DecidableEq, Repr

/-- A `table` element: its `tr` descendants in document order. -/
structure Table where
  rows : List Row
  deriving DecidableEq, Repr

/-- The rendered page: its tables in document order, the text of the first
`.station-info` element and the text of the first `h1, h2, h3` element. -/
structure Document where
  tables : List Table
  stationInfo : Option String
  heading : Option String
  deriving DecidableEq, Repr

/-- Embeds `table.querySelectorAll('th')`. -/
def thCells (table : Table) : List Cell :=
  (table.rows.map (fun r => r.cells.filter (fun c => c.isTh))).flatten

/-- Embeds `targetTable.querySelectorAll('thead tr, tr')`: every `tr` that
matches either selector, in document order. -/
def theadTrOrTr (table : Table) : List Row :=
  table.rows.filter (fun r => r.inThead || true)

/-- Embeds `targetTable.querySelectorAll('tbody tr, tr')`: every `tr` that
matches either selector, in document order. -/
def tbodyTrOrTr (table : Table) : List Row :=
  table.rows.filter (fun r => r.inTbody || true)

/-! ## The extraction result -/

/-- A value of a record: the trimmed string of a cell or the number it was
coerced to, and `null`, which only appears once the result has left the
page. -/
inductive Value where
  | str (s : String)
  | num (n : JsNumber)
  | null
  deriving DecidableEq, Repr

/-- The `rowData` object, as its entries in insertion order. (JavaScript
enumerates keys that are canonical array indices, such as `80`, before the
others; nothing below depends on the order of the entries.) -/
abbrev Record := List (String × Value)

/-- Assignment to an own property: overwrites the entry of the key or adds
one at the end. -/
def Record.put (r : Record) (key : String) (value : Value) : Record :=
  match r with
  | [] => [(key, value)]
  | (k, v) :: rest =>
    if k = key then (k, value) :: rest else (k, v) :: Record.put rest key value

/-- Embeds `rowData[key] = value` for a string or number `value`. The key
`__proto__` is the inherited accessor of `Object.prototype`, whose setter
ignores a value that is not an object: nothing is stored. -/
def Record.assign (r : Record) (key : String) (value : Value) : Record :=
  if key = "__proto__" then r else r.put key value

/-- Embeds `result.metadata`. -/
structure Metadata where
  extractedAt : Nat
  stationCode : Option String
  stationName : Option String
  deriving DecidableEq, Repr

/-- Embeds the `result` object returned by the `page.evaluate` callback. -/
structure Result where
  headers : List String
  subHeaders : List String
  data : List Record
  metadata : Metadata
  deriving DecidableEq, Repr

/-! ## The extractor -/

/-- The minimum number of cells (exclusive) of a table or row of interest. -/
def MIN_COLS : Nat := 5

/-- The message of the error thrown when no table is selected. -/
def tableNotFound : String := "Tabela de dados meteorológicos não encontrada"

/-- The table-selection loop (lines 82-88): the first table with more than
five `th` cells. -/
def selectTable : List Table → Option Table
  | [] => none
  | table :: rest =>
    if (thCells table).length > MIN_COLS then some table else selectTable rest

/-- The test of line 122 on a row: more than five cells and a first cell whose
trimmed text is not empty. -/
def isHeaderCandidate (row : Row) : Bool :=
  decide (row.cells.length > MIN_COLS) &&
    (match row.cells with
     | c :: _ => jsTrim c.text != ""
     | [] => false)

/-- The header-row scan (lines 118-130) from row index `i` on, with the
current `headerRowIndex` and `subHeaderRowIndex`. `headers` and `subHeaders`
are `result.headers` and `result.subHeaders` as they stand during the loop. -/
def headerScan (headers subHeaders : List String) :
    List Row → Nat → Nat → Nat → Nat × Nat
  | [], _, headerRowIndex, subHeaderRowIndex => (headerRowIndex, subHeaderRowIndex)
  | row :: rest, i, headerRowIndex, subHeaderRowIndex =>
    if isHeaderCandidate row then
      if headers.length = 0 then
        headerScan headers subHeaders rest (i + 1) i subHeaderRowIndex
      else if subHeaders.length = 0 then
        (headerRowIndex, i)
      else headerScan headers subHeaders rest (i + 1) headerRowIndex subHeaderRowIndex
    else headerScan headers subHeaders rest (i + 1) headerRowIndex subHeaderRowIndex

/-- The trimmed texts of a row's cells (lines 134-137 and 142-145). -/
def cellTexts (row : Row) : List String := row.cells.map (fun c => jsTrim c.text)

/-- The indices chosen by the scan, started as in lines 114-115 with
`headerRowIndex = 0`, `subHeaderRowIndex = 1` and both result lists empty. -/
def headerIndices (table : Table) : Nat × Nat :=
  headerScan [] [] (theadTrOrTr table) 0 0 1

/-- Lines 133-138: `result.headers`. -/
def resolveHeaders (table : Table) : List String :=
  match (theadTrOrTr table)[(headerIndices table).1]? with
  | some row => cellTexts row
  | none => []

/-- Lines 141-146: `result.subHeaders`. -/
def resolveSubHeaders (table : Table) : List String :=
  match (theadTrOrTr table)[(headerIndices table).2]? with
  | some row => if (headerIndices table).2 ≠ (headerIndices table).1 then cellTexts row else []
  | none => []

/-- Lines 158-164: the key under which the cell at `index` is stored. -/
def finalHeaderName (headers subHeaders : List String) (index : Nat) : String :=
  let headerName := orElseStr headers[index]? ("col_" ++ toString index)
  let subHeaderName := orElseStr subHeaders[index]? ""
  if subHeaderName ≠ "" ∧ subHeaderName ≠ headerName then
    headerName ++ "_" ++ subHeaderName
  else headerName

/-- Lines 166-171 on the already trimmed text: the value stored for a cell. -/
def coerceValue (cellValue : String) : Value :=
  if cellValue ≠ "" ∧ jsIsNaN cellValue = false ∧ cellValue ≠ "" then
    Value.num (jsParseFloat cellValue)
  else Value.str cellValue

/-- The value stored for a cell with the given `textContent`. -/
def cellValue (text : String) : Value := coerceValue (jsTrim text)

/-- The `cells.forEach` of lines 157-174 from cell index `index` on. -/
def fillRowData (headers subHeaders : List String) : List Cell → Nat → Record → Record
  | [], _, rowData => rowData
  | cell :: rest, index, rowData =>
    fillRowData headers subHeaders rest (index + 1)
      (rowData.assign (finalHeaderName headers subHeaders index) (cellValue cell.text))

/-- The `rowData` object built for a row. -/
def rowRecord (headers subHeaders : List String) (row : Row) : Record :=
  fillRowData headers subHeaders row.cells 0 []

/-- The test of line 177 on one value (`val !== '' && val !== null &&
val !== undefined`). -/
def isValidValue (v : Value) : Bool :=
  match v with
  | Value.str s => s != ""
  | Value.num _ => true
  | Value.null => false

/-- The data loop (lines 151-181). -/
def dataLoop (headers subHeaders : List String) : List Row → List Record
  | [] => []
  | row :: rest =>
    if row.cells.length > MIN_COLS then
      if (rowRecord headers subHeaders row).any (fun kv => isValidValue kv.2) then
        rowRecord headers subHeaders row :: dataLoop headers subHeaders rest
      else dataLoop headers subHeaders rest
    else dataLoop headers subHeaders rest

/-- Lines 107-110: `result.metadata.stationName`. -/
def stationName (doc : Document) : Option String :=
  match doc.stationInfo with
  | some t => some (jsTrim t)
  | none =>
    match doc.heading with
    | some t => some (jsTrim t)
    | none => none

/-- Lines 94-183 for the selected table. -/
def extractTable (doc : Document) (targetTable : Table) (now : Nat) : Result :=
  { headers := resolveHeaders targetTable
    subHeaders := resolveSubHeaders targetTable
    data := dataLoop (resolveHeaders targetTable) (resolveSubHeaders targetTable)
      (tbodyTrOrTr targetTable)
    metadata := { extractedAt := now, stationCode := none, stationName := stationName doc } }

/-- The `page.evaluate` callback (lines 77-184): the extraction result, or the
message of the error thrown. -/
def extract (doc : Document) (now : Nat) : Except String Result :=
  match selectTable doc.tables with
  | none => Except.error tableNotFound
  | some targetTable => Except.ok (extractTable doc targetTable now)

/-- What a value of the page becomes when `page.evaluate` returns it to Node
(serialised by value, as JSON): an infinite number or `NaN` becomes `null`,
negative zero becomes zero, every other value is kept. -/
def serializeValue (v : Value) : Value :=
  match v with
  | Value.num (JsNumber.infinity _) => Value.null
  | Value.num JsNumber.nan => Value.null
  | Value.num (JsNumber.finite negative significand exponent) =>
    if significand = 0 then Value.num (JsNumber.finite false 0 0)
    else Value.num (JsNumber.finite negative significand exponent)
  | Value.str s => Value.str s
  | Value.null => Value.null

/-- The result object as `page.evaluate` returns it to Node. -/
def serializeResult (r : Result) : Result :=
  { r with data := r.data.map (fun rec => rec.map (fun kv => (kv.1, serializeValue kv.2))) }

/-- Embeds `await page.evaluate(...)` (line 77): the serialised result of the
callback, or the message of the error it threw. -/
def pageEvaluate (doc : Document) (now : Nat) : Except String Result :=
  match extract doc now with
  | Except.ok result => Except.ok (serializeResult result)
  | Except.error e => Except.error e

/-! ## The cache (`node-cache`, `stdTTL: 300`) and the request layer

`node-cache` is a library the program depends on. Its operations are embedded
as the library behaves with the options of line 13: `set` stamps the entry with
the instant of the call plus the standard TTL, `get` and `has` answer for an
entry whose stamp is not before the present and delete an entry whose stamp
is. -/

/-- The lifetime of a cache entry in milliseconds (`stdTTL: 300`, line 13). -/
def STD_TTL_MS : Nat := 300 * 1000

/-- A stored entry of the cache: the value and the instant `t` after which it
is expired (`0` would mean that it never expires). -/
structure CacheEntry where
  v : Result
  t : Nat
  deriving DecidableEq, Repr

/-- The state of the `NodeCache` instance: the entry stored under each key. -/
abbrev Cache := String → Option CacheEntry

/-- Embeds `cache.del(key)`. -/
def Cache.del (c : Cache) (key : String) : Cache :=
  fun k => if k = key then none else c k

/-- The liveness test shared by `get` and `has`: an entry whose instant `t` is
before the present is expired and deleted. -/
def Cache.check (c : Cache) (key : String) (now : Nat) : Bool × Cache :=
  match c key with
  | none => (false, c)
  | some e => if e.t ≠ 0 ∧ e.t < now then (false, c.del key) else (true, c)

/-- Embeds `cache.get(key)` at instant `now`: the live value, if any, and the
cache afterwards. -/
def Cache.get (c : Cache) (key : String) (now : Nat) : Option Result × Cache :=
  match c key with
  | none => (none, c)
  | some e => if (c.check key now).1 then (some e.v, c) else (none, (c.check key now).2)

/-- Embeds `cache.has(key)` at instant `now`. -/
def Cache.has (c : Cache) (key : String) (now : Nat) : Bool × Cache :=
  c.check key now

/-- Embeds `cache.set(key, value)` at instant `now`, with the standard TTL. -/
def Cache.set (c : Cache) (key : String) (value : Result) (now : Nat) : Cache :=
  fun k => if k = key then some { v := value, t := now + STD_TTL_MS } else c k

/-- The cache of a freshly started process, and after `cache.flushAll()`. -/
def Cache.empty : Cache := fun _ => none

/-- The renderer (browser launch, `page.goto`, `page.waitForSelector`): the
rendered document for a URL, or the message of the error thrown. -/
abbrev Renderer := String → Except String Document

/-- The instants at which the wall clock is read while one request is served:
at `cache.get` (line 37), at `new Date()` inside the page (line 99), at
`cache.set` (line 187) and at `cache.has` (line 248). -/
structure Clock where
  lookup : Nat
  evaluate : Nat
  store : Nat
  respond : Nat
  deriving DecidableEq, Repr

/-- What a call of `scrapeWeatherData` leaves behind: the value returned or the
message of the error thrown, the cache, and how many renders and extractions
were started. -/
structure ScrapeOutcome where
  result : Except String Result
  cache : Cache
  renders : Nat
  extractions : Nat

/-- The key under which a station's result is cached (line 34). -/
def cacheKey (stationCode : String) : String := "weather_" ++ stationCode

/-- The page address of a station (line 63). -/
def stationUrl (stationCode : String) : String :=
  "https://tempo.inmet.gov.br/TabelaEstacoes/" ++ stationCode

/-- Embeds `scrapeWeatherData` (lines 33-199). A cached value is a result
object, hence truthy at line 38. -/
def scrapeWeatherData (renderer : Renderer) (cache : Cache) (stationCode : String)
    (clock : Clock) : ScrapeOutcome :=
  match cache.get (cacheKey stationCode) clock.lookup with
  | (some cachedData, cache1) =>
    { result := Except.ok cachedData, cache := cache1, renders := 0, extractions := 0 }
  | (none, cache1) =>
    match renderer (stationUrl stationCode) with
    | Except.error e =>
      { result := Except.error e, cache := cache1, renders := 1, extractions := 0 }
    | Except.ok doc =>
      match pageEvaluate doc clock.evaluate with
      | Except.error e =>
        { result := Except.error e, cache := cache1, renders := 1, extractions := 1 }
      | Except.ok weatherData =>
        { result := Except.ok weatherData
          cache := cache1.set (cacheKey stationCode) weatherData clock.store
          renders := 1, extractions := 1 }

/-- The JSON body of a response of the weather route. -/
inductive Body where
  | weather (success : Bool) (stationCode : String) (data : Result) (cached : Bool)
  | failure (error : String) (message : Option String) (code : Nat)
  deriving DecidableEq, Repr

/-- An HTTP response: status and body. -/
structure Response where
  status : Nat
  body : Body
  deriving DecidableEq, Repr

/-- What serving one request leaves behind. -/
structure HandlerOutcome where
  response : Response
  cache : Cache
  renders : Nat
  extractions : Nat

/-- The `length` of a JavaScript string: its number of UTF-16 code units. -/
def jsLength (s : String) : Nat :=
  (s.data.map (fun c => if c.toNat < 0x10000 then 1 else 2)).sum

/-- Embeds the handler of `GET /api/weather/:stationCode` (lines 229-260). -/
def getWeather (renderer : Renderer) (cache : Cache) (stationCode : String)
    (clock : Clock) : HandlerOutcome :=
  if stationCode = "" ∨ jsLength stationCode < 2 then
    { response := { status := 400, body := Body.failure "Código da estação inválido" none 400 }
      cache := cache, renders := 0, extractions := 0 }
  else
    let scraped := scrapeWeatherData renderer cache stationCode clock
    match scraped.result with
    | Except.ok weatherData =>
      { response :=
          { status := 200
            body := Body.weather true stationCode weatherData
              (scraped.cache.has (cacheKey stationCode) clock.respond).1 }
        cache := (scraped.cache.has (cacheKey stationCode) clock.respond).2
        renders := scraped.renders, extractions := scraped.extractions }
    | Except.error message =>
      { response :=
          { status := 500
            body := Body.failure "Erro ao extrair dados meteorológicos" (some message) 500 }
        cache := scraped.cache, renders := scraped.renders, extractions := scraped.extractions }

/-! ## Sample inputs -/

/-- A row of `td` cells inside the table body. -/
def bodyRow (texts : List String) : Row :=
  { inThead := false, inTbody := true, cells := texts.map (fun t => { isTh := false, text := t }) }

/-- A row of `th` cells inside the table head. -/
def headRow (texts : List String) : Row :=
  { inThead := true, inTbody := false, cells := texts.map (fun t => { isTh := true, text := t }) }

/-- A table of one head row with three columns. -/
def narrowTable : Table := { rows := [headRow ["Estação", "UF", "Situação"]] }

/-- A table of one head row with eight columns and one body row. -/
def wideTable : Table :=
  { rows := [headRow ["Data", "Hora", "Temp", "Umid", "Pto", "Press", "Vento", "Chuva"],
             bodyRow ["01/01", "0000", "23.5", "80", "19.8", "1012.1", "2.1", "0"]] }

/-- A page with the three-column table followed by the eight-column table. -/
def twoTableDoc : Document :=
  { tables := [narrowTable, wideTable], stationInfo := none, heading := none }

/-- A page whose only table has three columns. -/
def narrowDoc : Document :=
  { tables := [narrowTable], stationInfo := none, heading := none }

/-- A table with three header candidates: its first, third and fourth rows
(the first cell of the second row is empty). -/
def threeCandidateTable : Table :=
  { rows := [headRow ["Data", "Hora", "Temp", "Umid", "Pto", "Press"],
             headRow ["", "UTC", "Inst", "Inst", "Inst", "Inst"],
             bodyRow ["01/01", "0000", "23.5", "80", "19.8", "1012.1"],
             bodyRow ["01/01", "0100", "22.9", "82", "19.6", "1012.4"]] }

/-- A page whose only table is `threeCandidateTable`. -/
def threeCandidateDoc : Document :=
  { tables := [threeCandidateTable], stationInfo := none, heading := none }

/-- A table whose first row is its only header candidate: the first cell of
its second row is empty. -/
def oneCandidateTable : Table :=
  { rows := [headRow ["Data", "Hora", "Temp", "Umid", "Pto", "Press"],
             bodyRow ["", "0000", "23.5", "80", "19.8", "1012.1"]] }

/-- A page whose only table is `oneCandidateTable`. -/
def oneCandidateDoc : Document :=
  { tables := [oneCandidateTable], stationInfo := none, heading := none }

/-- A table whose second row is its only header candidate. -/
def secondRowCandidateTable : Table :=
  { rows := [headRow ["", "", "Temperatura", "", "", ""],
             headRow ["Data", "Hora", "Inst", "", "Min", "hPa"],
             bodyRow ["", "0000", "23.5", "80", "19.8", "1012.1"]] }

/-- A page whose only table is `secondRowCandidateTable`. -/
def secondRowCandidateDoc : Document :=
  { tables := [secondRowCandidateTable], stationInfo := none, heading := none }

/-- The field name of column `i` as the specification words it: `col_<i>` when
`primary[i]` is absent; otherwise `primary[i]` when `sub[i]` is absent, empty
or equal to `primary[i]`, and `primary[i] + "_" + sub[i]` in the remaining
case. -/
def specFieldName (primary sub : List String) (i : Nat) : String :=
  match primary[i]? with
  | none => "col_" ++ toString i
  | some p =>
    match sub[i]? with
    | none => p
    | some s => if s = "" ∨ s = p then p else p ++ "_" ++ s

/-- A table whose header texts repeat: the columns share the field names
`Temp` and `Umid`. Its second row is blank and its third row holds two
readings. -/
def repeatedNameTable : Table :=
  { rows := [headRow ["Temp", "Temp", "Temp", "Umid", "Umid", "Umid"],
             bodyRow ["", "", "", "", "", ""],
             bodyRow ["", "23.5", "", "", "80", ""]] }

/-- A page whose only table is `repeatedNameTable`. -/
def repeatedNameDoc : Document :=
  { tables := [repeatedNameTable], stationInfo := none, heading := none }

/-- A table of two header rows in the table head followed by three data rows
in the table body, every cell non-empty. -/
def twoHeaderThreeDataTable : Table :=
  { rows := [headRow ["Data", "Hora", "Temp", "Umid", "Pto", "Press"],
             headRow ["Dia", "UTC", "Inst", "Inst", "Inst", "Inst"],
             bodyRow ["01/01", "0000", "23.5", "80", "19.8", "1012.1"],
             bodyRow ["01/01", "0100", "22.9", "82", "19.6", "1012.4"],
             bodyRow ["01/01", "0200", "22.4", "85", "19.7", "1012.9"]] }

/-- A page whose only table is `twoHeaderThreeDataTable`. -/
def twoHeaderThreeDataDoc : Document :=
  { tables := [twoHeaderThreeDataTable], stationInfo := none, heading := none }

/-- A table of a single row of six `th` cells without text. -/
def blankTable : Table :=
  { rows := [headRow ["", "", "", "", "", ""]] }

/-- A page whose only table is `blankTable`. -/
def blankDoc : Document :=
  { tables := [blankTable], stationInfo := none, heading := none }

/-- A renderer that answers every address with the same page. -/
def constRenderer (doc : Document) : Renderer := fun _ => Except.ok doc

/-- The instants of a request served entirely at instant `t`. -/
def clockAt (t : Nat) : Clock := { lookup := t, evaluate := t, store := t, respond := t }

/-! ## The grammar of numeric strings -/

/-- A sequence of decimal digits (possibly empty). -/
def IsDigits (ds : List Char) : Prop := ∀ c ∈ ds, isDecimalDigit c = true

/-- The characters `ex` are an `ExponentPart` of value `ev`: `e` or `E`, an
optional sign and at least one digit. -/
def IsExponentPart (ex : List Char) (ev : Int) : Prop :=
  ∃ c ds, (c = 'e' ∨ c = 'E') ∧ ds ≠ [] ∧ IsDigits ds ∧
    ((ex = c :: ds ∧ ev = (digitsValue 10 ds : Int)) ∨
     (ex = c :: '+' :: ds ∧ ev = (digitsValue 10 ds : Int)) ∨
     (ex = c :: '-' :: ds ∧ ev = -(digitsValue 10 ds : Int)))

/-- The characters `ex` are an optional `ExponentPart` of value `ev`. -/
def IsOptExponent (ex : List Char) (ev : Int) : Prop :=
  (ex = [] ∧ ev = 0) ∨ IsExponentPart ex ev

/-- The characters `cs` are an unsigned decimal literal, digits with an
optional fraction and an optional exponent (`d+ exp?`, `d+ . d* exp?` or
`. d+ exp?`), whose value is `m * 10^e`. -/
def IsUnsignedDecimal (cs : List Char) (m : Nat) (e : Int) : Prop :=
  ∃ ip fp ex ev, IsDigits ip ∧ IsDigits fp ∧ IsOptExponent ex ev ∧
    ((cs = ip ++ ex ∧ ip ≠ [] ∧ fp = []) ∨
     (cs = ip ++ ('.' :: (fp ++ ex)) ∧ (ip ≠ [] ∨ fp ≠ []))) ∧
    m = digitsValue 10 (ip ++ fp) ∧ e = ev - (fp.length : Int)

/-- The characters `cs` are a decimal literal with an optional sign, whose
value is `(-1)^negative * m * 10^e`. -/
def IsDecimalLiteral (cs : List Char) (negative : Bool) (m : Nat) (e : Int) : Prop :=
  (negative = false ∧ IsUnsignedDecimal cs m e) ∨
  (negative = false ∧ ∃ r, cs = '+' :: r ∧ IsUnsignedDecimal r m e) ∨
  (negative = true ∧ ∃ r, cs = '-' :: r ∧ IsUnsignedDecimal r m e)

/-- The characters `cs` are `Infinity` with an optional sign. -/
def IsInfinityLiteral (cs : List Char) (negative : Bool) : Prop :=
  (negative = false ∧ (cs = infinityChars ∨ cs = '+' :: infinityChars)) ∨
  (negative = true ∧ cs = '-' :: infinityChars)

/-- The characters `cs` are an unsigned integer literal of radix 16, 8 or 2
(`0x`, `0o` or `0b` and at least one digit of the radix). -/
def IsNonDecimalLiteral (cs : List Char) : Prop :=
  ∃ k ds, cs = '0' :: k :: ds ∧ ds ≠ [] ∧
    (((k = 'x' ∨ k = 'X') ∧ ds.all isHexDigit = true) ∨
     ((k = 'o' ∨ k = 'O') ∧ ds.all isOctalDigit = true) ∨
     ((k = 'b' ∨ k = 'B') ∧ ds.all isBinaryDigit = true))

/-! ## Table selection -/

theorem theadTrOrTr_eq (t : Table) : theadTrOrTr t = t.rows := by
  simp [theadTrOrTr]

theorem tbodyTrOrTr_eq (t : Table) : tbodyTrOrTr t = t.rows := by
  simp [tbodyTrOrTr]

theorem selectTable_eq_none (tables : List Table) :
    selectTable tables = none ↔ ∀ t ∈ tables, (thCells t).length ≤ MIN_COLS := by
  induction tables with
  | nil => simp [selectTable]
  | cons t rest ih =>
    by_cases h : (thCells t).length > MIN_COLS
    · simp only [selectTable, h, if_true, List.mem_cons, forall_eq_or_imp]
      constructor
      · intro h'; cases h'
      · intro h'; omega
    · simp only [selectTable, h, if_false, List.mem_cons, forall_eq_or_imp, ih]
      constructor
      · intro h'; exact ⟨by omega, h'⟩
      · intro h'; exact h'.2

theorem selectTable_first (pre post : List Table) (t : Table)
    (hpre : ∀ u ∈ pre, (thCells u).length ≤ MIN_COLS) (ht : (thCells t).length > MIN_COLS) :
    selectTable (pre ++ t :: post) = some t := by
  induction pre with
  | nil => simp [selectTable, ht]
  | cons u rest ih =>
    have hu : ¬ (thCells u).length > MIN_COLS := by
      have := hpre u (List.mem_cons_self _ _); omega
    simp only [List.cons_append, selectTable, hu, if_false]
    exact ih (fun v hv => hpre v (List.mem_cons_of_mem _ hv))

/-- C1: the extractor selects the first table, in document order, with more
than five `th` cells, and fails with the table-not-found error when no table
has more than five; a table with three `th` cells followed by one with eight
has the second one selected. -/
theorem C1_first_wide_table_is_selected :
    (∀ (doc : Document) (now : Nat) (pre post : List Table) (t : Table),
      doc.tables = pre ++ t :: post →
      (∀ u ∈ pre, (thCells u).length ≤ 5) →
      (thCells t).length > 5 →
      selectTable doc.tables = some t ∧
        extract doc now = Except.ok (extractTable doc t now)) ∧
    (∀ (doc : Document) (now : Nat),
      (∀ t ∈ doc.tables, (thCells t).length ≤ 5) →
      extract doc now = Except.error "Tabela de dados meteorológicos não encontrada") ∧
    (∀ (doc : Document) (now : Nat) (t3 t8 : Table),
      doc.tables = [t3, t8] → (thCells t3).length = 3 → (thCells t8).length = 8 →
      extract doc now = Except.ok (extractTable doc t8 now)) := by
  refine ⟨?_, ?_, ?_⟩
  · intro doc now pre post t hdoc hpre ht
    have hsel : selectTable doc.tables = some t := by
      rw [hdoc]; exact selectTable_first pre post t hpre ht
    exact ⟨hsel, by simp [extract, hsel]⟩
  · intro doc now hall
    have hsel : selectTable doc.tables = none := (selectTable_eq_none _).2 hall
    simp [extract, hsel, tableNotFound]
  · intro doc now t3 t8 hdoc h3 h8
    have hsel : selectTable doc.tables = some t8 := by
      rw [hdoc]
      exact selectTable_first [t3] [] t8
        (by intro u hu; simp at hu; subst hu; simp [MIN_COLS, h3]) (by simp [MIN_COLS, h8])
    simp [extract, hsel]

theorem C1_first_wide_table_is_selected_witness :
    (selectTable twoTableDoc.tables = some wideTable ∧
      extract twoTableDoc 0 = Except.ok (extractTable twoTableDoc wideTable 0)) ∧
    extract narrowDoc 0 = Except.error "Tabela de dados meteorológicos não encontrada" ∧
    ((thCells narrowTable).length = 3 ∧ (thCells wideTable).length = 8 ∧
      extract twoTableDoc 7 = Except.ok (extractTable twoTableDoc wideTable 7)) :=
  ⟨C1_first_wide_table_is_selected.1 twoTableDoc 0 [narrowTable] [] wideTable rfl
      (by decide) (by decide),
   C1_first_wide_table_is_selected.2.1 narrowDoc 0 (by decide),
   by decide, by decide,
   C1_first_wide_table_is_selected.2.2 twoTableDoc 7 narrowTable wideTable rfl (by decide)
      (by decide)⟩

/-! ## Header resolution -/

theorem headerScan_no_candidate (rows : List Row)
    (h : ∀ x ∈ rows, isHeaderCandidate x = false) (i hd sb : Nat) :
    headerScan [] [] rows i hd sb = (hd, sb) := by
  induction rows generalizing i with
  | nil => simp [headerScan]
  | cons r rest ih =>
    have hr : isHeaderCandidate r = false := h r (List.mem_cons_self _ _)
    simp only [headerScan, hr]
    exact ih (fun x hx => h x (List.mem_cons_of_mem _ hx)) (i + 1)

theorem headerScan_cons_candidate (r : Row) (rest : List Row) (i hd sb : Nat)
    (h : isHeaderCandidate r = true) :
    headerScan [] [] (r :: rest) i hd sb = headerScan [] [] rest (i + 1) i sb := by
  simp [headerScan, h]

theorem headerScan_cons_other (r : Row) (rest : List Row) (i hd sb : Nat)
    (h : isHeaderCandidate r = false) :
    headerScan [] [] (r :: rest) i hd sb = headerScan [] [] rest (i + 1) hd sb := by
  simp [headerScan, h]

theorem headerScan_last_candidate (pre post : List Row) (r : Row)
    (hr : isHeaderCandidate r = true)
    (hpost : ∀ x ∈ post, isHeaderCandidate x = false) (i hd sb : Nat) :
    headerScan [] [] (pre ++ r :: post) i hd sb = (i + pre.length, sb) := by
  induction pre generalizing i hd with
  | nil =>
    rw [List.nil_append, headerScan_cons_candidate r post i hd sb hr]
    simpa using headerScan_no_candidate post hpost (i + 1) i sb
  | cons x rest ih =>
    rw [List.cons_append]
    cases hx : isHeaderCandidate x with
    | true =>
      rw [headerScan_cons_candidate x _ i hd sb hx, ih (i + 1) i, List.length_cons]
      congr 1; omega
    | false =>
      rw [headerScan_cons_other x _ i hd sb hx, ih (i + 1) hd, List.length_cons]
      congr 1; omega

theorem getElem?_append_cons_length (pre post : List Row) (r : Row) :
    (pre ++ r :: post)[pre.length]? = some r := by
  rw [List.getElem?_append_right (le_refl _)]
  simp

theorem headerIndices_last_candidate (t : Table) (pre post : List Row) (r : Row)
    (hrows : t.rows = pre ++ r :: post) (hr : isHeaderCandidate r = true)
    (hpost : ∀ x ∈ post, isHeaderCandidate x = false) :
    headerIndices t = (pre.length, 1) := by
  simp only [headerIndices, theadTrOrTr_eq, hrows]
  simpa using headerScan_last_candidate pre post r hr hpost 0 0 1

theorem resolveHeaders_last_candidate (t : Table) (pre post : List Row) (r : Row)
    (hrows : t.rows = pre ++ r :: post) (hr : isHeaderCandidate r = true)
    (hpost : ∀ x ∈ post, isHeaderCandidate x = false) :
    resolveHeaders t = cellTexts r := by
  simp only [resolveHeaders, headerIndices_last_candidate t pre post r hrows hr hpost,
    theadTrOrTr_eq, hrows, getElem?_append_cons_length]


theorem put_mem (r : Record) (k : String) (v : Value) (kv : String × Value)
    (h : kv ∈ r.put k v) : kv.1 = k ∨ ∃ kv' ∈ r, kv'.1 = kv.1 := by
  induction r with
  | nil =>
    simp only [Record.put, List.mem_singleton] at h
    left; rw [h]
  | cons e rest ih =>
    obtain ⟨k', v'⟩ := e
    by_cases hk : k' = k
    · simp only [Record.put, hk, if_true, List.mem_cons] at h
      rcases h with h | h
      · left; rw [h]
      · right; exact ⟨kv, List.mem_cons_of_mem _ h, rfl⟩
    · simp only [Record.put, hk, if_false, List.mem_cons] at h
      rcases h with h | h
      · right; exact ⟨(k', v'), List.mem_cons_self _ _, by rw [h]⟩
      · rcases ih h with h' | ⟨kv', hm, he⟩
        · left; exact h'
        · right; exact ⟨kv', List.mem_cons_of_mem _ hm, he⟩

theorem assign_mem (r : Record) (k : String) (v : Value) (kv : String × Value)
    (h : kv ∈ r.assign k v) : kv.1 = k ∨ ∃ kv' ∈ r, kv'.1 = kv.1 := by
  unfold Record.assign at h
  by_cases hk : k = "__proto__"
  · rw [if_pos hk] at h
    exact Or.inr ⟨kv, h, rfl⟩
  · rw [if_neg hk] at h
    exact put_mem r k v kv h

theorem fillRowData_keys (H S : List String) (cells : List Cell) (index : Nat) (acc : Record)
    (kv : String × Value) (h : kv ∈ fillRowData H S cells index acc) :
    (∃ kv' ∈ acc, kv'.1 = kv.1) ∨
      ∃ j, j < cells.length ∧ kv.1 = finalHeaderName H S (index + j) := by
  induction cells generalizing index acc with
  | nil => left; exact ⟨kv, h, rfl⟩
  | cons c rest ih =>
    simp only [fillRowData] at h
    rcases ih (index + 1) _ h with ⟨kv', hm, he⟩ | ⟨j, hj, he⟩
    · rcases assign_mem _ _ _ _ hm with hk | ⟨kv'', hm', he'⟩
      · right; exact ⟨0, by simp, by rw [← he, hk]; rfl⟩
      · left; exact ⟨kv'', hm', by rw [he', he]⟩
    · right
      refine ⟨j + 1, by simp [hj], ?_⟩
      rw [he]; congr 1; omega

theorem rowRecord_keys (H S : List String) (row : Row) (kv : String × Value)
    (h : kv ∈ rowRecord H S row) :
    ∃ i, i < row.cells.length ∧ kv.1 = finalHeaderName H S i := by
  rcases fillRowData_keys H S row.cells 0 [] kv h with ⟨kv', hm, _⟩ | ⟨j, hj, he⟩
  · cases hm
  · exact ⟨j, hj, by simpa using he⟩

theorem dataLoop_mem (H S : List String) (rows : List Row) (rec : Record)
    (h : rec ∈ dataLoop H S rows) :
    ∃ row ∈ rows, row.cells.length > MIN_COLS ∧ rec = rowRecord H S row := by
  induction rows with
  | nil => simp [dataLoop] at h
  | cons r rest ih =>
    simp only [dataLoop] at h
    split at h
    · rename_i hlen
      split at h
      · rcases List.mem_cons.1 h with h | h
        · exact ⟨r, List.mem_cons_self _ _, hlen, h⟩
        · obtain ⟨row, hm, hl, he⟩ := ih h
          exact ⟨row, List.mem_cons_of_mem _ hm, hl, he⟩
      · obtain ⟨row, hm, hl, he⟩ := ih h
        exact ⟨row, List.mem_cons_of_mem _ hm, hl, he⟩
    · obtain ⟨row, hm, hl, he⟩ := ih h
      exact ⟨row, List.mem_cons_of_mem _ hm, hl, he⟩

theorem finalHeaderName_no_sub (H : List String) (i : Nat) :
    finalHeaderName H [] i = orElseStr H[i]? ("col_" ++ toString i) := by
  simp [finalHeaderName, orElseStr]

/-- C2 (the code at the failing input): in a table whose first, third and
fourth rows are header candidates, `result.headers` holds the texts of the
fourth row (the last candidate), not of the first, and `result.subHeaders`
holds the texts of the second row (index 1, not a candidate), not of the
third. -/
theorem C2_headers_come_from_last_candidate :
    threeCandidateTable.rows.map isHeaderCandidate = [true, false, true, true] ∧
    extract threeCandidateDoc 0 = Except.ok (extractTable threeCandidateDoc threeCandidateTable 0) ∧
    (extractTable threeCandidateDoc threeCandidateTable 0).headers =
      ["01/01", "0100", "22.9", "82", "19.6", "1012.4"] ∧
    (extractTable threeCandidateDoc threeCandidateTable 0).subHeaders =
      ["", "UTC", "Inst", "Inst", "Inst", "Inst"] :=
  ⟨by decide, rfl, by decide, by decide⟩

/-- C3 (as stated, refuted): `oneCandidateTable` has exactly one header
candidate, its first row, yet `result.subHeaders` holds the texts of its second
row and the field name of column 2 is `Temp_23.5`, not the primary header
`Temp`. -/
theorem C3_one_candidate_counterexample :
    (oneCandidateTable.rows.filter isHeaderCandidate).length = 1 ∧
    extract oneCandidateDoc 0 = Except.ok (extractTable oneCandidateDoc oneCandidateTable 0) ∧
    (extractTable oneCandidateDoc oneCandidateTable 0).headers =
      ["Data", "Hora", "Temp", "Umid", "Pto", "Press"] ∧
    (extractTable oneCandidateDoc oneCandidateTable 0).subHeaders =
      ["", "0000", "23.5", "80", "19.8", "1012.1"] ∧
    finalHeaderName (extractTable oneCandidateDoc oneCandidateTable 0).headers
      (extractTable oneCandidateDoc oneCandidateTable 0).subHeaders 2 = "Temp_23.5" :=
  ⟨by decide, rfl, by decide, by decide, by decide⟩

/-- C3 (amended): when exactly one row of the selected table is a header
candidate and that row is the second row (index 1) or the only row of the
table, `result.headers` holds its trimmed texts, `result.subHeaders` is empty,
and the field name of column `i` is the primary header of column `i` when that
header is present and not empty, `col_<i>` otherwise; every key of every record
is such a name. -/
theorem C3_single_candidate_field_names (doc : Document) (now : Nat) (t : Table)
    (pre post : List Row) (r : Row)
    (hsel : selectTable doc.tables = some t)
    (hrows : t.rows = pre ++ r :: post)
    (hr : isHeaderCandidate r = true)
    (_hpre : ∀ x ∈ pre, isHeaderCandidate x = false)
    (hpost : ∀ x ∈ post, isHeaderCandidate x = false)
    (hpos : pre.length = 1 ∨ (pre = [] ∧ post = [])) :
    ∃ res, extract doc now = Except.ok res ∧
      res.headers = cellTexts r ∧
      res.subHeaders = [] ∧
      (∀ i, finalHeaderName res.headers res.subHeaders i =
        orElseStr (cellTexts r)[i]? ("col_" ++ toString i)) ∧
      (∀ rec ∈ res.data, ∃ row ∈ t.rows, rec = rowRecord res.headers res.subHeaders row ∧
        ∀ kv ∈ rec, ∃ i, i < row.cells.length ∧
          kv.1 = orElseStr (cellTexts r)[i]? ("col_" ++ toString i)) := by
  have hH : resolveHeaders t = cellTexts r :=
    resolveHeaders_last_candidate t pre post r hrows hr hpost
  have hidx : headerIndices t = (pre.length, 1) :=
    headerIndices_last_candidate t pre post r hrows hr hpost
  have hS : resolveSubHeaders t = [] := by
    rcases hpos with h1 | ⟨h1, h2⟩
    · simp only [resolveSubHeaders, hidx, h1]
      split <;> simp
    · subst h1; subst h2
      simp [resolveSubHeaders, hidx, theadTrOrTr_eq, hrows]
  refine ⟨extractTable doc t now, by simp [extract, hsel], ?_, ?_, ?_, ?_⟩
  · exact hH
  · exact hS
  · intro i
    show finalHeaderName (resolveHeaders t) (resolveSubHeaders t) i = _
    rw [hH, hS, finalHeaderName_no_sub]
  · intro rec hrec
    have hrec' : rec ∈ dataLoop (cellTexts r) [] t.rows := by
      have : rec ∈ dataLoop (resolveHeaders t) (resolveSubHeaders t) (tbodyTrOrTr t) := hrec
      rwa [hH, hS, tbodyTrOrTr_eq] at this
    obtain ⟨row, hm, _, he⟩ := dataLoop_mem _ _ _ _ hrec'
    refine ⟨row, hm, ?_, ?_⟩
    · show rec = rowRecord (resolveHeaders t) (resolveSubHeaders t) row
      rw [hH, hS]; exact he
    · intro kv hkv
      rw [he] at hkv
      obtain ⟨i, hi, hk⟩ := rowRecord_keys _ _ _ _ hkv
      exact ⟨i, hi, by rw [hk, finalHeaderName_no_sub]⟩

theorem C3_single_candidate_field_names_witness :
    selectTable secondRowCandidateDoc.tables = some secondRowCandidateTable ∧
    isHeaderCandidate (headRow ["Data", "Hora", "Inst", "", "Min", "hPa"]) = true ∧
    ∃ res, extract secondRowCandidateDoc 0 = Except.ok res ∧
      res.headers = cellTexts (headRow ["Data", "Hora", "Inst", "", "Min", "hPa"]) ∧
      res.subHeaders = [] ∧
      (∀ i, finalHeaderName res.headers res.subHeaders i =
        orElseStr (cellTexts (headRow ["Data", "Hora", "Inst", "", "Min", "hPa"]))[i]?
          ("col_" ++ toString i)) ∧
      (∀ rec ∈ res.data, ∃ row ∈ secondRowCandidateTable.rows,
        rec = rowRecord res.headers res.subHeaders row ∧
        ∀ kv ∈ rec, ∃ i, i < row.cells.length ∧
          kv.1 = orElseStr (cellTexts (headRow ["Data", "Hora", "Inst", "", "Min", "hPa"]))[i]?
            ("col_" ++ toString i)) :=
  ⟨by decide, by decide,
   C3_single_candidate_field_names secondRowCandidateDoc 0 secondRowCandidateTable
    [headRow ["", "", "Temperatura", "", "", ""]]
    [bodyRow ["", "0000", "23.5", "80", "19.8", "1012.1"]]
    (headRow ["Data", "Hora", "Inst", "", "Min", "hPa"])
    (by decide) rfl (by decide) (by decide) (by decide) (Or.inl rfl)⟩

/-! ## Field names -/

/-- C4 (as stated, refuted): a primary header that is present but empty gives
the field name `col_0`, not the primary header; an absent primary header with
the sub-header `Max` gives `col_0_Max`, not `col_0`. -/
theorem C4_field_name_counterexample :
    finalHeaderName [""] [] 0 = "col_0" ∧ specFieldName [""] [] 0 = "" ∧
    finalHeaderName [] ["Max"] 0 = "col_0_Max" ∧ specFieldName [] ["Max"] 0 = "col_0" := by
  decide

/-- C4 (amended): with the base name of column `i` being `primary[i]` when it
is present and not empty and `col_<i>` otherwise, the field name is the base
name when `sub[i]` is absent, empty or equal to the base name, and the base
name, `_` and `sub[i]` otherwise. Primary headers `Hora`, `Temp` with
sub-headers (empty), `Max` give the field names `Hora`, `Temp_Max`. -/
theorem C4_field_name_composition (primary sub : List String) (i : Nat) :
    (∀ p, primary[i]? = some p → p ≠ "" →
      (sub[i]? = none ∨ sub[i]? = some "" ∨ sub[i]? = some p) →
      finalHeaderName primary sub i = p) ∧
    (∀ p s, primary[i]? = some p → p ≠ "" → sub[i]? = some s → s ≠ "" → s ≠ p →
      finalHeaderName primary sub i = p ++ "_" ++ s) ∧
    ((primary[i]? = none ∨ primary[i]? = some "") →
      (sub[i]? = none ∨ sub[i]? = some "" ∨ sub[i]? = some ("col_" ++ toString i)) →
      finalHeaderName primary sub i = "col_" ++ toString i) ∧
    (∀ s, (primary[i]? = none ∨ primary[i]? = some "") → sub[i]? = some s → s ≠ "" →
      s ≠ "col_" ++ toString i →
      finalHeaderName primary sub i = "col_" ++ toString i ++ "_" ++ s) ∧
    (List.range 2).map (finalHeaderName ["Hora", "Temp"] ["", "Max"]) = ["Hora", "Temp_Max"] := by
  refine ⟨?_, ?_, ?_, ?_, by decide⟩
  · intro p hp hne hs
    rcases hs with hs | hs | hs <;> simp [finalHeaderName, orElseStr, hp, hs, hne]
  · intro p s hp hne hs hs1 hs2
    simp [finalHeaderName, orElseStr, hp, hs, hne, hs1, hs2]
  · intro hp hs
    rcases hp with hp | hp <;> rcases hs with hs | hs | hs <;>
      simp [finalHeaderName, orElseStr, hp, hs] <;>
      (intro h1 h2; exact absurd h2 h1)
  · intro s hp hs hs1 hs2
    rcases hp with hp | hp <;> simp [finalHeaderName, orElseStr, hp, hs, hs1, hs2]

theorem C4_field_name_composition_witness :
    finalHeaderName ["Hora", "Temp"] ["", "Max"] 0 = "Hora" ∧
    finalHeaderName ["Hora", "Temp"] ["", "Max"] 1 = "Temp" ++ "_" ++ "Max" ∧
    finalHeaderName ["Hora", ""] ["", ""] 1 = "col_" ++ toString 1 ∧
    finalHeaderName ["Hora"] ["", "Max"] 1 = "col_" ++ toString 1 ++ "_" ++ "Max" :=
  ⟨(C4_field_name_composition ["Hora", "Temp"] ["", "Max"] 0).1 "Hora" rfl (by decide)
     (Or.inr (Or.inl rfl)),
   (C4_field_name_composition ["Hora", "Temp"] ["", "Max"] 1).2.1 "Temp" "Max" rfl (by decide) rfl
     (by decide) (by decide),
   (C4_field_name_composition ["Hora", ""] ["", ""] 1).2.2.1 (Or.inr rfl) (Or.inr (Or.inl rfl)),
   (C4_field_name_composition ["Hora"] ["", "Max"] 1).2.2.2.1 "Max" (Or.inl rfl) rfl (by decide)
     (by decide)⟩

/-! ## Row extraction -/

/-- C6 (the code at the failing input): the third row of `repeatedNameTable`
has six cells, two of them non-empty (`23.5` and `80`), yet its record keeps
only the empty texts written last under the repeated field names and the row
is left out of `data`, which holds the record of the first row alone. -/
theorem C6_row_with_readings_is_dropped :
    extract repeatedNameDoc 0 =
      Except.ok (extractTable repeatedNameDoc repeatedNameTable 0) ∧
    repeatedNameTable.rows[2]? = some (bodyRow ["", "23.5", "", "", "80", ""]) ∧
    (bodyRow ["", "23.5", "", "", "80", ""]).cells.length = 6 ∧
    (cellTexts (bodyRow ["", "23.5", "", "", "80", ""])) = ["", "23.5", "", "", "80", ""] ∧
    rowRecord (extractTable repeatedNameDoc repeatedNameTable 0).headers
      (extractTable repeatedNameDoc repeatedNameTable 0).subHeaders
      (bodyRow ["", "23.5", "", "", "80", ""]) =
      [("Temp", Value.str ""), ("Umid", Value.str "")] ∧
    (extractTable repeatedNameDoc repeatedNameTable 0).data =
      [[("Temp", Value.str "Temp"), ("Umid", Value.str "Umid")]] :=
  ⟨rfl, by decide, by decide, by decide, by decide, by decide⟩

/-- C7 (the code at the failing input): for the table of two header rows and
three body data rows, `result.data` has five records (the two header rows are
read as data too), `result.headers` holds the texts of the last data row, and
the keys of every record are built from that row and the second header row. -/
theorem C7_two_header_three_data_rows :
    extract twoHeaderThreeDataDoc 0 =
      Except.ok (extractTable twoHeaderThreeDataDoc twoHeaderThreeDataTable 0) ∧
    (extractTable twoHeaderThreeDataDoc twoHeaderThreeDataTable 0).data.length = 5 ∧
    (extractTable twoHeaderThreeDataDoc twoHeaderThreeDataTable 0).headers =
      ["01/01", "0200", "22.4", "85", "19.7", "1012.9"] ∧
    (extractTable twoHeaderThreeDataDoc twoHeaderThreeDataTable 0).subHeaders =
      ["Dia", "UTC", "Inst", "Inst", "Inst", "Inst"] ∧
    (extractTable twoHeaderThreeDataDoc twoHeaderThreeDataTable 0).data.map
        (fun rec => rec.map (fun kv => kv.1)) =
      List.replicate 5
        ["01/01_Dia", "0200_UTC", "22.4_Inst", "85_Inst", "19.7_Inst", "1012.9_Inst"] :=
  ⟨rfl, by decide, by decide, by decide, by decide⟩

/-! ## Failure of the extraction -/

theorem extract_error_iff (doc : Document) (now : Nat) :
    (∃ msg, extract doc now = Except.error msg) ↔
      ∀ t ∈ doc.tables, (thCells t).length ≤ MIN_COLS := by
  rw [← selectTable_eq_none]
  unfold extract
  cases selectTable doc.tables <;> simp

theorem extract_error_message (doc : Document) (now : Nat) (msg : String)
    (h : extract doc now = Except.error msg) : msg = tableNotFound := by
  unfold extract at h
  cases hsel : selectTable doc.tables with
  | none => rw [hsel] at h; simp at h; exact h.symm
  | some t => rw [hsel] at h; simp at h

theorem cache_get_miss_key (cache : Cache) (key : String) (now : Nat)
    (h : (cache.get key now).1 = none) : (cache.get key now).2 key = none := by
  unfold Cache.get Cache.check at *
  cases hc : cache key with
  | none => simp [hc]
  | some e =>
    simp only [hc] at h ⊢
    by_cases ht : e.t ≠ 0 ∧ e.t < now
    · simp [ht, Cache.del]
    · simp [ht] at h

theorem scrape_miss_extract_error (renderer : Renderer) (cache : Cache) (stationCode : String)
    (clock : Clock) (doc : Document) (e : String)
    (hget : (cache.get (cacheKey stationCode) clock.lookup).1 = none)
    (hrender : renderer (stationUrl stationCode) = Except.ok doc)
    (hex : extract doc clock.evaluate = Except.error e) :
    (scrapeWeatherData renderer cache stationCode clock).result = Except.error e ∧
    (scrapeWeatherData renderer cache stationCode clock).cache =
      (cache.get (cacheKey stationCode) clock.lookup).2 := by
  unfold scrapeWeatherData
  generalize cache.get (cacheKey stationCode) clock.lookup = g at hget ⊢
  obtain ⟨o, c1⟩ := g
  simp only at hget
  subst hget
  simp [hrender, pageEvaluate, hex]

theorem scrape_miss_extract_ok (renderer : Renderer) (cache : Cache) (stationCode : String)
    (clock : Clock) (doc : Document) (res : Result)
    (hget : (cache.get (cacheKey stationCode) clock.lookup).1 = none)
    (hrender : renderer (stationUrl stationCode) = Except.ok doc)
    (hex : extract doc clock.evaluate = Except.ok res) :
    (scrapeWeatherData renderer cache stationCode clock).result =
      Except.ok (serializeResult res) ∧
    (scrapeWeatherData renderer cache stationCode clock).cache =
      (cache.get (cacheKey stationCode) clock.lookup).2.set (cacheKey stationCode)
        (serializeResult res) clock.store ∧
    (scrapeWeatherData renderer cache stationCode clock).renders = 1 ∧
    (scrapeWeatherData renderer cache stationCode clock).extractions = 1 := by
  unfold scrapeWeatherData
  generalize cache.get (cacheKey stationCode) clock.lookup = g at hget ⊢
  obtain ⟨o, c1⟩ := g
  simp only at hget
  subst hget
  simp [hrender, pageEvaluate, hex]

theorem fresh_extraction_reports_cached (renderer : Renderer) (cache : Cache)
    (stationCode : String) (clock : Clock) (doc : Document) (res : Result)
    (hlen : 2 ≤ jsLength stationCode)
    (hget : (cache.get (cacheKey stationCode) clock.lookup).1 = none)
    (hrender : renderer (stationUrl stationCode) = Except.ok doc)
    (hex : extract doc clock.evaluate = Except.ok res)
    (hclock : clock.respond ≤ clock.store + STD_TTL_MS) :
    (getWeather renderer cache stationCode clock).response =
      { status := 200, body := Body.weather true stationCode (serializeResult res) true } ∧
    (getWeather renderer cache stationCode clock).renders = 1 ∧
    (getWeather renderer cache stationCode clock).extractions = 1 := by
  have hne : stationCode ≠ "" := by
    intro h; rw [h] at hlen; simp [jsLength] at hlen
  have hlen2 : ¬ jsLength stationCode < 2 := by omega
  obtain ⟨hres, hcache, hr, hx⟩ :=
    scrape_miss_extract_ok renderer cache stationCode clock doc res hget hrender hex
  have hhas : (((cache.get (cacheKey stationCode) clock.lookup).2.set (cacheKey stationCode)
      (serializeResult res) clock.store).has (cacheKey stationCode) clock.respond).1 = true := by
    have hnot : ¬ (clock.store + STD_TTL_MS ≠ 0 ∧ clock.store + STD_TTL_MS < clock.respond) := by
      intro h; omega
    simp only [Cache.has, Cache.check, Cache.set, if_true]
    rw [if_neg hnot]
  unfold getWeather
  simp only [hne, hlen2, or_self, if_false, hres, hcache, hr, hx, hhas]
  exact ⟨trivial, trivial, trivial⟩

/-- C8 (as stated, refuted): the page whose only table is a single row of six
`th` cells without text is extracted successfully, with an empty `data` list,
and the route answers 200 with it. -/
theorem C8_empty_data_counterexample :
    extract blankDoc 0 = Except.ok (extractTable blankDoc blankTable 0) ∧
    (extractTable blankDoc blankTable 0).data = [] ∧
    (getWeather (constRenderer blankDoc) Cache.empty "A871" (clockAt 0)).response =
      { status := 200
        body := Body.weather true "A871" (extractTable blankDoc blankTable 0) true } :=
  ⟨rfl, by decide, by decide⟩

/-- C8 (amended): the extraction fails exactly when no table has more than
five `th` cells, and then with the table-not-found error; for a valid station
code without a live cache entry whose page has no such table, the route
answers 500 with that message and stores nothing under the station's key. -/
theorem C8_extraction_fails_iff_no_table (doc : Document) (now : Nat) :
    ((∃ msg, extract doc now = Except.error msg) ↔
      ∀ t ∈ doc.tables, (thCells t).length ≤ 5) ∧
    (∀ msg, extract doc now = Except.error msg →
      msg = "Tabela de dados meteorológicos não encontrada") ∧
    (∀ (renderer : Renderer) (cache : Cache) (stationCode : String) (clock : Clock),
      2 ≤ jsLength stationCode →
      (cache.get (cacheKey stationCode) clock.lookup).1 = none →
      renderer (stationUrl stationCode) = Except.ok doc →
      clock.evaluate = now →
      (∀ t ∈ doc.tables, (thCells t).length ≤ 5) →
      (getWeather renderer cache stationCode clock).response =
        { status := 500
          body := Body.failure "Erro ao extrair dados meteorológicos"
            (some "Tabela de dados meteorológicos não encontrada") 500 } ∧
      ((getWeather renderer cache stationCode clock).cache (cacheKey stationCode)).isNone =
        true) := by
  refine ⟨extract_error_iff doc now, fun msg h => extract_error_message doc now msg h, ?_⟩
  intro renderer cache stationCode clock hlen hget hrender hnow hall
  have hne : stationCode ≠ "" := by
    intro h; rw [h] at hlen; simp [jsLength] at hlen
  have hex : extract doc clock.evaluate = Except.error tableNotFound := by
    obtain ⟨msg, hmsg⟩ := (extract_error_iff doc clock.evaluate).2 hall
    rw [hmsg, extract_error_message doc _ msg hmsg]
  obtain ⟨hres, hcache⟩ :=
    scrape_miss_extract_error renderer cache stationCode clock doc tableNotFound hget hrender hex
  have hlen' : ¬ jsLength stationCode < 2 := by omega
  unfold getWeather
  simp only [hne, hlen', or_self, if_false, hres, hcache]
  exact ⟨rfl, by rw [cache_get_miss_key cache _ _ hget]; rfl⟩

theorem C8_extraction_fails_iff_no_table_witness :
    2 ≤ jsLength "A871" ∧
    (∀ t ∈ narrowDoc.tables, (thCells t).length ≤ 5) ∧
    extract narrowDoc 0 = Except.error tableNotFound ∧
    tableNotFound = "Tabela de dados meteorológicos não encontrada" ∧
    (getWeather (constRenderer narrowDoc) Cache.empty "A871" (clockAt 0)).response =
      { status := 500
        body := Body.failure "Erro ao extrair dados meteorológicos"
          (some "Tabela de dados meteorológicos não encontrada") 500 } ∧
    ((getWeather (constRenderer narrowDoc) Cache.empty "A871" (clockAt 0)).cache
      (cacheKey "A871")).isNone = true :=
  ⟨by decide, by decide,
   rfl, (C8_extraction_fails_iff_no_table narrowDoc 0).2.1 tableNotFound rfl,
   (C8_extraction_fails_iff_no_table narrowDoc 0).2.2 (constRenderer narrowDoc) Cache.empty
     "A871" (clockAt 0) (by decide) rfl rfl rfl (by decide)⟩

/-! ## The cache and the request layer -/

theorem has_true_iff (c : Cache) (key : String) (now : Nat) :
    (c.has key now).1 = true ↔ ∃ e, c key = some e ∧ ¬ (e.t ≠ 0 ∧ e.t < now) := by
  unfold Cache.has Cache.check
  cases hc : c key with
  | none => simp
  | some e =>
    by_cases ht : e.t ≠ 0 ∧ e.t < now
    · simp [ht]
    · simp only [ht, if_false, Option.some.injEq, exists_eq_left', not_false_eq_true]

theorem has_true_cache (c : Cache) (key : String) (now : Nat)
    (h : (c.has key now).1 = true) : (c.has key now).2 = c := by
  unfold Cache.has Cache.check at *
  cases hc : c key with
  | none => simp [hc] at h
  | some e =>
    simp only [hc] at h ⊢
    by_cases ht : e.t ≠ 0 ∧ e.t < now
    · simp [ht] at h
    · simp [ht]

theorem has_cache_key (c : Cache) (key : String) (now : Nat) (e : CacheEntry)
    (h : (c.has key now).2 key = some e) : c key = some e := by
  unfold Cache.has Cache.check at h
  cases hc : c key with
  | none => simp [hc] at h
  | some e0 =>
    simp only [hc] at h
    by_cases ht : e0.t ≠ 0 ∧ e0.t < now
    · simp [ht, Cache.del] at h
    · simp only [ht, if_false] at h
      rw [← h, hc]

theorem get_of_live (c : Cache) (key : String) (now : Nat) (e : CacheEntry)
    (hc : c key = some e) (ht : ¬ (e.t ≠ 0 ∧ e.t < now)) :
    c.get key now = (some e.v, c) := by
  simp [Cache.get, Cache.check, hc, ht]

theorem get_some_entry (c : Cache) (key : String) (now : Nat) (d : Result)
    (h : (c.get key now).1 = some d) :
    (c.get key now).2 = c ∧ ∃ e, c key = some e ∧ e.v = d := by
  unfold Cache.get Cache.check at *
  cases hc : c key with
  | none => simp [hc] at h
  | some e =>
    simp only [hc] at h ⊢
    by_cases ht : e.t ≠ 0 ∧ e.t < now
    · simp [ht] at h
    · simp only [ht, if_false, if_true, Option.some.injEq] at h
      simp [ht, h]

theorem scrape_ok_entry (renderer : Renderer) (cache : Cache) (stationCode : String)
    (clock : Clock) (d : Result)
    (h : (scrapeWeatherData renderer cache stationCode clock).result = Except.ok d)
    (e : CacheEntry)
    (he : (scrapeWeatherData renderer cache stationCode clock).cache (cacheKey stationCode)
      = some e) : e.v = d := by
  unfold scrapeWeatherData at h he
  cases hg : (cache.get (cacheKey stationCode) clock.lookup).1 with
  | some d0 =>
    obtain ⟨hc, e0, he0, hv⟩ := get_some_entry cache _ _ d0 hg
    have hpair : cache.get (cacheKey stationCode) clock.lookup = (some d0, cache) :=
      Prod.ext hg hc
    rw [hpair] at h he
    simp only [Except.ok.injEq] at h he
    rw [he0] at he
    simp only [Option.some.injEq] at he
    rw [← he, hv, h]
  | none =>
    have hpair : cache.get (cacheKey stationCode) clock.lookup =
        (none, (cache.get (cacheKey stationCode) clock.lookup).2) :=
      Prod.ext hg rfl
    rw [hpair] at h he
    simp only at h he
    cases hr : renderer (stationUrl stationCode) with
    | error msg => rw [hr] at h; simp at h
    | ok doc =>
      rw [hr] at h he
      simp only at h he
      cases hx : pageEvaluate doc clock.evaluate with
      | error msg => rw [hx] at h; simp at h
      | ok res =>
        rw [hx] at h he
        simp only [Except.ok.injEq] at h
        simp only [Cache.set, if_true, Option.some.injEq] at he
        rw [← he, ← h]

/-- C9: when a first request for a station succeeds and the station's cache
entry is still live while a second request is served, the second request
starts no render and no extraction, returns the data of the first request, and
reports `cached = true`. -/
theorem C9_second_request_is_served_from_cache (renderer : Renderer) (cache : Cache)
    (stationCode : String) (clock1 clock2 : Clock) (data1 : Result) (cached1 : Bool)
    (hfirst : (getWeather renderer cache stationCode clock1).response =
      { status := 200, body := Body.weather true stationCode data1 cached1 })
    (hclock : clock2.lookup ≤ clock2.respond)
    (hlive : ((getWeather renderer cache stationCode clock1).cache.has
      (cacheKey stationCode) clock2.respond).1 = true) :
    (getWeather renderer (getWeather renderer cache stationCode clock1).cache stationCode
      clock2).response =
      { status := 200, body := Body.weather true stationCode data1 true } ∧
    (getWeather renderer (getWeather renderer cache stationCode clock1).cache stationCode
      clock2).renders = 0 ∧
    (getWeather renderer (getWeather renderer cache stationCode clock1).cache stationCode
      clock2).extractions = 0 := by
  obtain ⟨e, he, hte⟩ := (has_true_iff _ _ _).1 hlive
  have hcache2 := has_true_cache _ _ _ hlive
  generalize hc1 : (getWeather renderer cache stationCode clock1).cache = cache1 at he hlive hcache2 ⊢
  have hvalid : ¬ (stationCode = "" ∨ jsLength stationCode < 2) := by
    intro hbad
    unfold getWeather at hfirst
    simp [hbad] at hfirst
  have hv : e.v = data1 := by
    unfold getWeather at hfirst hc1
    simp only [hvalid, if_false] at hfirst hc1
    cases hres : (scrapeWeatherData renderer cache stationCode clock1).result with
    | error msg => rw [hres] at hfirst; simp at hfirst
    | ok d =>
      rw [hres] at hfirst hc1
      simp only [Response.mk.injEq, Body.weather.injEq, true_and] at hfirst
      simp only at hc1
      rw [← hc1] at he
      have := has_cache_key _ _ _ _ he
      rw [← hfirst.1]
      exact scrape_ok_entry renderer cache stationCode clock1 d hres e this
  have hget : cache1.get (cacheKey stationCode) clock2.lookup = (some e.v, cache1) :=
    get_of_live cache1 _ _ e he (by intro h; exact hte ⟨h.1, by omega⟩)
  unfold getWeather scrapeWeatherData
  simp [hvalid, hget, hlive, hv]

theorem C9_second_request_is_served_from_cache_witness :
    (getWeather (constRenderer twoTableDoc) Cache.empty "A871" (clockAt 1000)).response =
      { status := 200
        body := Body.weather true "A871" (extractTable twoTableDoc wideTable 1000) true } ∧
    ((getWeather (constRenderer twoTableDoc) Cache.empty "A871" (clockAt 1000)).cache.has
      (cacheKey "A871") (clockAt 301000).respond).1 = true ∧
    (getWeather (constRenderer twoTableDoc)
      (getWeather (constRenderer twoTableDoc) Cache.empty "A871" (clockAt 1000)).cache "A871"
      (clockAt 301000)).response =
      { status := 200
        body := Body.weather true "A871" (extractTable twoTableDoc wideTable 1000) true } ∧
    (getWeather (constRenderer twoTableDoc)
      (getWeather (constRenderer twoTableDoc) Cache.empty "A871" (clockAt 1000)).cache "A871"
      (clockAt 301000)).renders = 0 ∧
    (getWeather (constRenderer twoTableDoc)
      (getWeather (constRenderer twoTableDoc) Cache.empty "A871" (clockAt 1000)).cache "A871"
      (clockAt 301000)).extractions = 0 :=
  ⟨by decide, by decide,
   C9_second_request_is_served_from_cache (constRenderer twoTableDoc) Cache.empty "A871"
     (clockAt 1000) (clockAt 301000) (extractTable twoTableDoc wideTable 1000) true
     (by decide) (by decide) (by decide)⟩

/-- C10 (the code at the failing input): with no cache entry for the station
(never fetched), and again once the entry of a first request has expired, a
successful request starts one render and one extraction, yet its response
reports `cached = true`: `cache.has` is asked after the fresh result has been
stored. -/
theorem C10_fresh_extraction_reports_cached_true :
    (getWeather (constRenderer twoTableDoc) Cache.empty "A871" (clockAt 1000)).renders = 1 ∧
    (getWeather (constRenderer twoTableDoc) Cache.empty "A871" (clockAt 1000)).extractions = 1 ∧
    (getWeather (constRenderer twoTableDoc) Cache.empty "A871" (clockAt 1000)).response =
      { status := 200
        body := Body.weather true "A871" (extractTable twoTableDoc wideTable 1000) true } ∧
    ((getWeather (constRenderer twoTableDoc) Cache.empty "A871" (clockAt 1000)).cache.has
      (cacheKey "A871") 301001).1 = false ∧
    (getWeather (constRenderer twoTableDoc)
      (getWeather (constRenderer twoTableDoc) Cache.empty "A871" (clockAt 1000)).cache "A871"
      (clockAt 301001)).renders = 1 ∧
    (getWeather (constRenderer twoTableDoc)
      (getWeather (constRenderer twoTableDoc) Cache.empty "A871" (clockAt 1000)).cache "A871"
      (clockAt 301001)).extractions = 1 ∧
    (getWeather (constRenderer twoTableDoc)
      (getWeather (constRenderer twoTableDoc) Cache.empty "A871" (clockAt 1000)).cache "A871"
      (clockAt 301001)).response =
      { status := 200
        body := Body.weather true "A871" (extractTable twoTableDoc wideTable 301001) true } := by
  decide

/-! ## Numeric strings -/

theorem trimEnd_append (cs : List Char) :
    ∃ ws, cs = trimEnd cs ++ ws := by
  unfold trimEnd
  obtain ⟨t, ht⟩ := List.dropWhile_suffix (l := cs.reverse) isJsWhiteSpace
  refine ⟨t.reverse, ?_⟩
  have := congrArg List.reverse ht
  simp only [List.reverse_append, List.reverse_reverse] at this
  exact this.symm

theorem trimStart_of_head (cs : List Char)
    (h : ∀ c r, cs = c :: r → isJsWhiteSpace c = false) : trimStart cs = cs := by
  unfold trimStart
  cases cs with
  | nil => rfl
  | cons c r => simp [List.dropWhile_cons, h c r rfl]

theorem trimStart_head (cs : List Char) (c : Char) (r : List Char)
    (h : trimStart cs = c :: r) : isJsWhiteSpace c = false := by
  unfold trimStart at h
  have hne : cs.dropWhile isJsWhiteSpace ≠ [] := by rw [h]; simp
  have := List.head_dropWhile_not isJsWhiteSpace cs hne
  simp only [h, List.head_cons] at this
  exact this

theorem trimEnd_idem (cs : List Char) : trimEnd (trimEnd cs) = trimEnd cs := by
  unfold trimEnd
  rw [List.reverse_reverse, List.dropWhile_idempotent]

theorem trimStart_trimEnd_trimStart (cs : List Char) :
    trimStart (trimEnd (trimStart cs)) = trimEnd (trimStart cs) := by
  apply trimStart_of_head
  intro c r hc
  obtain ⟨ws, hws⟩ := trimEnd_append (trimStart cs)
  rw [hc] at hws
  exact trimStart_head cs c (r ++ ws) (by simpa using hws)

theorem jsTrim_data_trim (text : String) :
    trimEnd (trimStart (jsTrim text).data) = (jsTrim text).data := by
  simp only [jsTrim]
  rw [trimStart_trimEnd_trimStart, trimEnd_idem]

theorem jsTrim_data_trimStart (text : String) :
    trimStart (jsTrim text).data = (jsTrim text).data := by
  simp only [jsTrim]
  rw [trimStart_trimEnd_trimStart]

theorem digit_run (ds rest : List Char) (hds : IsDigits ds)
    (hrest : ∀ c r, rest = c :: r → isDecimalDigit c = false) :
    (ds ++ rest).takeWhile isDecimalDigit = ds ∧
    (ds ++ rest).dropWhile isDecimalDigit = rest := by
  have h1 : rest.takeWhile isDecimalDigit = [] := by
    cases rest with
    | nil => rfl
    | cons c r => simp [List.takeWhile_cons, hrest c r rfl]
  have h2 : rest.dropWhile isDecimalDigit = rest := by
    cases rest with
    | nil => rfl
    | cons c r => simp [List.dropWhile_cons, hrest c r rfl]
  constructor
  · rw [List.takeWhile_append_of_pos (fun a ha => hds a ha), h1, List.append_nil]
  · rw [List.dropWhile_append_of_pos (fun a ha => hds a ha), h2]

theorem isDigits_takeWhile (cs : List Char) : IsDigits (cs.takeWhile isDecimalDigit) :=
  fun _ hc => List.mem_takeWhile_imp hc

theorem isDigits_of_dropWhile_nil (cs : List Char) (h : cs.dropWhile isDecimalDigit = []) :
    IsDigits cs ∧ cs.takeWhile isDecimalDigit = cs := by
  have hall : ∀ x ∈ cs, isDecimalDigit x = true := List.dropWhile_eq_nil_iff.1 h
  exact ⟨hall, List.takeWhile_eq_self_iff.2 hall⟩

theorem readExponentDigits_complete (negative : Bool) (fallback ds : List Char)
    (hne : ds ≠ []) (hds : IsDigits ds) :
    readExponentDigits negative fallback ds =
      (if negative then -(digitsValue 10 ds : Int) else (digitsValue 10 ds : Int), []) := by
  have hall : ∀ x ∈ ds, isDecimalDigit x = true := hds
  have ht : ds.takeWhile isDecimalDigit = ds := List.takeWhile_eq_self_iff.2 hall
  have hd : ds.dropWhile isDecimalDigit = [] := List.dropWhile_eq_nil_iff.2 hall
  unfold readExponentDigits
  rw [ht, hd]
  cases ds with
  | nil => exact absurd rfl hne
  | cons d r => cases negative <;> simp

theorem readExponentDigits_sound (negative : Bool) (fallback ds : List Char) (ev : Int)
    (hfb : fallback ≠ []) (h : readExponentDigits negative fallback ds = (ev, [])) :
    ds ≠ [] ∧ IsDigits ds ∧
      ev = (if negative then -(digitsValue 10 ds : Int) else (digitsValue 10 ds : Int)) := by
  unfold readExponentDigits at h
  by_cases hemp : (ds.takeWhile isDecimalDigit).isEmpty = true
  · simp only [hemp, if_true, Prod.mk.injEq] at h
    exact absurd h.2 hfb
  · simp only [hemp] at h
    have hd : ds.dropWhile isDecimalDigit = [] := by
      cases negative
      · simp only [Bool.false_eq_true, if_false, Prod.mk.injEq] at h; exact h.2
      · simp only [Bool.false_eq_true, if_false, if_true, Prod.mk.injEq] at h; exact h.2
    obtain ⟨hdig, htake⟩ := isDigits_of_dropWhile_nil ds hd
    rw [htake] at h hemp
    refine ⟨?_, hdig, ?_⟩
    · intro hnil; rw [hnil] at hemp; simp at hemp
    · cases negative
      · simp only [Bool.false_eq_true, if_false, Prod.mk.injEq] at h ⊢; exact h.1.symm
      · simp only [Bool.false_eq_true, if_false, if_true, Prod.mk.injEq] at h ⊢; exact h.1.symm

theorem digit_ne_marks (d : Char) (h : isDecimalDigit d = true) :
    d ≠ '-' ∧ d ≠ '+' ∧ d ≠ '.' ∧ d ≠ 'e' ∧ d ≠ 'E' ∧ d ≠ 'I' := by
  refine ⟨?_, ?_, ?_, ?_, ?_, ?_⟩ <;>
    (intro hd; rw [hd] at h; exact absurd h (by decide))

theorem readExponent_complete (ex : List Char) (ev : Int) (h : IsExponentPart ex ev) :
    readExponent ex = (ev, []) := by
  obtain ⟨c, ds, hc, hne, hds, h | h | h⟩ := h
  · obtain ⟨hex, hev⟩ := h
    cases ds with
    | nil => exact absurd rfl hne
    | cons d r =>
      obtain ⟨h1, h2, -⟩ := digit_ne_marks d (hds d (List.mem_cons_self _ _))
      rw [hex, hev]
      simp only [readExponent, hc, if_true, h1, h2, if_false]
      rw [readExponentDigits_complete false _ (d :: r) hne hds]
      simp
  · obtain ⟨hex, hev⟩ := h
    rw [hex, hev]
    simp only [readExponent, hc, if_true]
    rw [readExponentDigits_complete false _ ds hne hds]
    simp
  · obtain ⟨hex, hev⟩ := h
    rw [hex, hev]
    simp only [readExponent, hc, if_true]
    rw [readExponentDigits_complete true _ ds hne hds]
    simp

theorem readOptExponent_complete (ex : List Char) (ev : Int) (h : IsOptExponent ex ev) :
    readExponent ex = (ev, []) := by
  rcases h with ⟨h1, h2⟩ | h
  · rw [h1, h2]; rfl
  · exact readExponent_complete ex ev h

theorem readExponent_sound (cs : List Char) (ev : Int) (h : readExponent cs = (ev, [])) :
    IsOptExponent cs ev := by
  cases cs with
  | nil =>
    left
    simp only [readExponent, Prod.mk.injEq, and_true] at h
    exact ⟨rfl, h.symm⟩
  | cons c rest =>
    right
    by_cases hc : c = 'e' ∨ c = 'E'
    · cases rest with
      | nil => simp [readExponent, hc] at h
      | cons s r =>
        simp only [readExponent, hc, if_true] at h
        by_cases hm : s = '-'
        · rw [if_pos hm] at h
          obtain ⟨hne, hds, hev⟩ := readExponentDigits_sound true _ r ev (by simp) h
          exact ⟨c, r, hc, hne, hds, Or.inr (Or.inr ⟨by rw [hm], by simpa using hev⟩)⟩
        · rw [if_neg hm] at h
          by_cases hp : s = '+'
          · rw [if_pos hp] at h
            obtain ⟨hne, hds, hev⟩ := readExponentDigits_sound false _ r ev (by simp) h
            exact ⟨c, r, hc, hne, hds, Or.inr (Or.inl ⟨by rw [hp], by simpa using hev⟩)⟩
          · rw [if_neg hp] at h
            obtain ⟨hne, hds, hev⟩ :=
              readExponentDigits_sound false _ (s :: r) ev (by simp) h
            exact ⟨c, s :: r, hc, hne, hds, Or.inl ⟨rfl, by simpa using hev⟩⟩
    · simp [readExponent, hc] at h

theorem optExponent_head (ex : List Char) (ev : Int) (h : IsOptExponent ex ev) :
    ∀ c r, ex = c :: r → c = 'e' ∨ c = 'E' := by
  intro c r hex
  rcases h with ⟨h1, _⟩ | ⟨c', ds, hc, _, _, h | h | h⟩
  · rw [h1] at hex; cases hex
  all_goals
    rw [h.1] at hex
    injection hex with h1 _
    rw [← h1]; exact hc

theorem optExponent_head_not_digit (ex : List Char) (ev : Int) (h : IsOptExponent ex ev) :
    ∀ c r, ex = c :: r → isDecimalDigit c = false := by
  intro c r hex
  rcases optExponent_head ex ev h c r hex with hc | hc <;> rw [hc] <;> decide

theorem optExponent_nil (ev : Int) (h : IsOptExponent [] ev) : ev = 0 := by
  rcases h with ⟨_, h2⟩ | ⟨c, ds, _, _, _, h | h | h⟩
  · exact h2
  all_goals exact absurd h.1 (by simp)

theorem readDigitsLiteral_complete (negative : Bool) (cs : List Char) (m : Nat) (e : Int)
    (h : IsUnsignedDecimal cs m e) :
    readDigitsLiteral negative cs = some (decimalToNumber negative m e, []) := by
  obtain ⟨ip, fp, ex, ev, hip, hfp, hex, hcs, hm, he⟩ := h
  have hread := readOptExponent_complete ex ev hex
  rcases hcs with ⟨hcs, hne, hfp0⟩ | ⟨hcs, hne⟩
  · obtain ⟨ht, hd⟩ := digit_run ip ex hip (optExponent_head_not_digit ex ev hex)
    have hipe : ip.isEmpty = false := by cases ip with
      | nil => exact absurd rfl hne
      | cons _ _ => rfl
    subst hfp0
    rw [hm, he, hcs]
    unfold readDigitsLiteral
    rw [ht, hd]
    cases ex with
    | nil =>
      have := optExponent_nil ev hex
      simp [hipe, this]
    | cons c r =>
      have hc : c ≠ '.' := by
        rcases optExponent_head _ ev hex c r rfl with hc | hc <;> rw [hc] <;> decide
      simp [hc, hipe, hread]
  · have hdot : ∀ c r, '.' :: (fp ++ ex) = c :: r → isDecimalDigit c = false := by
      intro c r hc
      injection hc with h1 _
      rw [← h1]; decide
    obtain ⟨ht, hd⟩ := digit_run ip ('.' :: (fp ++ ex)) hip hdot
    obtain ⟨ht2, hd2⟩ := digit_run fp ex hfp (optExponent_head_not_digit ex ev hex)
    have hemp : (ip.isEmpty && fp.isEmpty) = false := by
      rcases hne with hne | hne
      · cases ip with
        | nil => exact absurd rfl hne
        | cons _ _ => rfl
      · cases fp with
        | nil => exact absurd rfl hne
        | cons _ _ => simp
    rw [hm, he, hcs]
    unfold readDigitsLiteral
    rw [ht, hd]
    simp only [if_true, ht2, hd2, hemp, hread]
    simp

theorem readDigitsLiteral_sound (negative : Bool) (cs : List Char) (n : JsNumber)
    (h : readDigitsLiteral negative cs = some (n, [])) :
    ∃ m e, n = decimalToNumber negative m e ∧ IsUnsignedDecimal cs m e := by
  have hsplit : cs.takeWhile isDecimalDigit ++ cs.dropWhile isDecimalDigit = cs :=
    List.takeWhile_append_dropWhile isDecimalDigit cs
  have hip := isDigits_takeWhile cs
  unfold readDigitsLiteral at h
  generalize cs.takeWhile isDecimalDigit = ip at h hsplit hip
  cases hd : cs.dropWhile isDecimalDigit with
  | nil =>
    rw [hd] at h hsplit
    simp only at h
    by_cases hemp : ip.isEmpty = true
    · simp [hemp] at h
    · simp only [hemp, Bool.false_eq_true, if_false, Option.some.injEq, Prod.mk.injEq,
        and_true] at h
      refine ⟨digitsValue 10 ip, 0, h.symm, ip, [], [], 0, hip, ?_, Or.inl ⟨rfl, rfl⟩, ?_, ?_, ?_⟩
      · intro c hc; cases hc
      · left
        refine ⟨hsplit.symm, ?_, rfl⟩
        intro hnil; rw [hnil] at hemp; simp at hemp
      · simp
      · simp
  | cons c r =>
    rw [hd] at h hsplit
    simp only at h
    by_cases hc : c = '.'
    · simp only [hc, if_true] at h
      by_cases hemp : (ip.isEmpty && (r.takeWhile isDecimalDigit).isEmpty) = true
      · simp [hemp] at h
      · simp only [hemp, Bool.false_eq_true, if_false, Option.some.injEq, Prod.mk.injEq] at h
        have hr : r.takeWhile isDecimalDigit ++ r.dropWhile isDecimalDigit = r :=
          List.takeWhile_append_dropWhile isDecimalDigit r
        have hex : IsOptExponent (r.dropWhile isDecimalDigit)
            (readExponent (r.dropWhile isDecimalDigit)).1 :=
          readExponent_sound _ _ (Prod.ext rfl h.2)
        refine ⟨_, _, h.1.symm, ip, r.takeWhile isDecimalDigit, r.dropWhile isDecimalDigit,
          (readExponent (r.dropWhile isDecimalDigit)).1, hip, isDigits_takeWhile r, hex,
          Or.inr ⟨?_, ?_⟩, rfl, rfl⟩
        · rw [hr, ← hc]; exact hsplit.symm
        · by_contra hcon
          simp only [not_or, not_not] at hcon
          rw [hcon.1, hcon.2] at hemp
          simp at hemp
    · simp only [hc, if_false] at h
      by_cases hemp : ip.isEmpty = true
      · simp [hemp] at h
      · simp only [hemp, Bool.false_eq_true, if_false, Option.some.injEq, Prod.mk.injEq] at h
        have hex : IsOptExponent (c :: r) (readExponent (c :: r)).1 :=
          readExponent_sound _ _ (Prod.ext rfl h.2)
        refine ⟨_, _, h.1.symm, ip, [], c :: r, (readExponent (c :: r)).1, hip, ?_, hex,
          Or.inl ⟨hsplit.symm, ?_, rfl⟩, ?_, ?_⟩
        · intro x hx; cases hx
        · intro hnil; rw [hnil] at hemp; simp at hemp
        · simp
        · simp

theorem unsignedDecimal_head (cs : List Char) (m : Nat) (e : Int)
    (h : IsUnsignedDecimal cs m e) :
    ∃ c r, cs = c :: r ∧ (isDecimalDigit c = true ∨ c = '.') := by
  obtain ⟨ip, fp, ex, ev, hip, _, _, hcs, _, _⟩ := h
  cases ip with
  | nil =>
    rcases hcs with ⟨_, hne, _⟩ | ⟨hcs, _⟩
    · exact absurd rfl hne
    · exact ⟨'.', fp ++ ex, by simpa using hcs, Or.inr rfl⟩
  | cons d ip' =>
    have hd := hip d (List.mem_cons_self _ _)
    rcases hcs with ⟨hcs, _, _⟩ | ⟨hcs, _⟩
    · exact ⟨d, ip' ++ ex, by simpa using hcs, Or.inl hd⟩
    · exact ⟨d, ip' ++ ('.' :: (fp ++ ex)), by simpa using hcs, Or.inl hd⟩

theorem mark_or_digit_ne (c : Char) (h : isDecimalDigit c = true ∨ c = '.') :
    c ≠ 'I' ∧ c ≠ '+' ∧ c ≠ '-' ∧ isJsWhiteSpace c = false := by
  rcases h with h | h
  · obtain ⟨h1, h2, -, -, -, h6⟩ := digit_ne_marks c h
    refine ⟨h6, h2, h1, ?_⟩
    have h48 : 48 ≤ c.toNat ∧ c.toNat ≤ 57 := by
      simpa [isDecimalDigit] using h
    simp only [isJsWhiteSpace, Bool.or_eq_false_iff, beq_eq_false_iff_ne, ne_eq,
      Bool.and_eq_false_iff, decide_eq_false_iff_not, not_le]
    omega
  · rw [h]; decide

theorem infinity_not_head (c : Char) (r : List Char) (hc : c ≠ 'I') :
    infinityChars.isPrefixOf (c :: r) = false := by
  have : ('I' == c) = false := by
    rw [beq_eq_false_iff_ne]; exact fun h => hc h.symm
  simp [infinityChars, List.isPrefixOf, this]

theorem readUnsignedDecimal_complete (negative : Bool) (cs : List Char) (m : Nat) (e : Int)
    (h : IsUnsignedDecimal cs m e) :
    readUnsignedDecimal negative cs = some (decimalToNumber negative m e, []) := by
  obtain ⟨c, r, hcs, hc⟩ := unsignedDecimal_head cs m e h
  have hinf : infinityChars.isPrefixOf cs = false := by
    rw [hcs]; exact infinity_not_head c r (mark_or_digit_ne c hc).1
  unfold readUnsignedDecimal
  rw [hinf]
  simpa using readDigitsLiteral_complete negative cs m e h

theorem readUnsignedDecimal_infinity (negative : Bool) :
    readUnsignedDecimal negative infinityChars = some (JsNumber.infinity negative, []) := by
  cases negative <;> rfl

theorem readUnsignedDecimal_sound (negative : Bool) (cs : List Char) (n : JsNumber)
    (h : readUnsignedDecimal negative cs = some (n, [])) :
    (n = JsNumber.infinity negative ∧ cs = infinityChars) ∨
      ∃ m e, n = decimalToNumber negative m e ∧ IsUnsignedDecimal cs m e := by
  unfold readUnsignedDecimal at h
  by_cases hinf : infinityChars.isPrefixOf cs = true
  · left
    simp only [hinf, if_true, Option.some.injEq, Prod.mk.injEq] at h
    obtain ⟨t, ht⟩ := List.isPrefixOf_iff_prefix.1 hinf
    have hdrop : cs.drop 8 = t := by rw [← ht]; simp [infinityChars]
    rw [hdrop] at h
    refine ⟨h.1.symm, ?_⟩
    rw [← ht, h.2, List.append_nil]
  · right
    simp only [hinf, Bool.false_eq_true, if_false] at h
    exact readDigitsLiteral_sound negative cs n h

theorem readDecimal_complete (cs : List Char) (negative : Bool) (m : Nat) (e : Int)
    (h : IsDecimalLiteral cs negative m e) :
    readDecimal cs = some (decimalToNumber negative m e, []) := by
  rcases h with ⟨hn, hu⟩ | ⟨hn, r, hcs, hu⟩ | ⟨hn, r, hcs, hu⟩
  · obtain ⟨c, r, hcs, hc⟩ := unsignedDecimal_head cs m e hu
    obtain ⟨-, h2, h3, -⟩ := mark_or_digit_ne c hc
    have := readUnsignedDecimal_complete false cs m e hu
    rw [hn]
    rw [hcs] at this ⊢
    simp only [readDecimal, h2, h3, if_false]
    exact this
  · rw [hn, hcs]
    simp only [readDecimal, if_true]
    exact readUnsignedDecimal_complete false r m e hu
  · rw [hn, hcs]
    simp only [readDecimal, if_true]
    exact readUnsignedDecimal_complete true r m e hu

theorem readDecimal_infinity (cs : List Char) (negative : Bool)
    (h : IsInfinityLiteral cs negative) :
    readDecimal cs = some (JsNumber.infinity negative, []) := by
  rcases h with ⟨hn, h | h⟩ | ⟨hn, h⟩ <;> rw [hn, h] <;> rfl

theorem readDecimal_sound (cs : List Char) (n : JsNumber)
    (h : readDecimal cs = some (n, [])) :
    (∃ negative m e, n = decimalToNumber negative m e ∧ IsDecimalLiteral cs negative m e) ∨
      ∃ negative, n = JsNumber.infinity negative ∧ IsInfinityLiteral cs negative := by
  cases cs with
  | nil =>
    simp only [readDecimal] at h
    rcases readUnsignedDecimal_sound false [] n h with ⟨_, h2⟩ | ⟨m, e, h1, h2⟩
    · exact absurd h2 (by simp [infinityChars])
    · exact Or.inl ⟨false, m, e, h1, Or.inl ⟨rfl, h2⟩⟩
  | cons c r =>
    simp only [readDecimal] at h
    by_cases hp : c = '+'
    · rw [if_pos hp] at h
      rcases readUnsignedDecimal_sound false r n h with ⟨h1, h2⟩ | ⟨m, e, h1, h2⟩
      · exact Or.inr ⟨false, h1, Or.inl ⟨rfl, Or.inr (by rw [hp, h2])⟩⟩
      · exact Or.inl ⟨false, m, e, h1, Or.inr (Or.inl ⟨rfl, r, by rw [hp], h2⟩)⟩
    · rw [if_neg hp] at h
      by_cases hm : c = '-'
      · rw [if_pos hm] at h
        rcases readUnsignedDecimal_sound true r n h with ⟨h1, h2⟩ | ⟨m, e, h1, h2⟩
        · exact Or.inr ⟨true, h1, Or.inr ⟨rfl, by rw [hm, h2]⟩⟩
        · exact Or.inl ⟨true, m, e, h1, Or.inr (Or.inr ⟨rfl, r, by rw [hm], h2⟩)⟩
      · rw [if_neg hm] at h
        rcases readUnsignedDecimal_sound false (c :: r) n h with ⟨h1, h2⟩ | ⟨m, e, h1, h2⟩
        · exact Or.inr ⟨false, h1, Or.inl ⟨rfl, Or.inl h2⟩⟩
        · exact Or.inl ⟨false, m, e, h1, Or.inl ⟨rfl, h2⟩⟩

theorem roundHalfEven_near (num den : Nat) (hden : 0 < den) :
    2 * den * roundHalfEven num den ≤ 2 * num + den ∧
    2 * num ≤ 2 * den * roundHalfEven num den + den ∧
    (2 * num = 2 * den * roundHalfEven num den + den ∨
      2 * num + den = 2 * den * roundHalfEven num den →
      roundHalfEven num den % 2 = 0) := by
  obtain ⟨q, r, hr, hnum⟩ : ∃ q r, r < den ∧ num = den * q + r :=
    ⟨num / den, num % den, Nat.mod_lt _ hden, (Nat.div_add_mod num den).symm⟩
  have hmod : num % den = r := by
    rw [hnum, Nat.mul_add_mod, Nat.mod_eq_of_lt hr]
  have hdiv : num / den = q := by
    rw [hnum, Nat.mul_add_div hden, Nat.div_eq_of_lt hr, Nat.add_zero]
  have ha : 2 * den * q = 2 * (den * q) := Nat.mul_assoc 2 den q
  have hb : 2 * den * (q + 1) = 2 * (den * q) + 2 * den := by
    rw [Nat.mul_assoc, Nat.mul_succ, Nat.mul_add]
  unfold roundHalfEven
  rw [hmod, hdiv]
  by_cases h1 : 2 * r < den
  · rw [if_pos h1]
    exact ⟨by omega, by omega, fun h => by omega⟩
  · rw [if_neg h1]
    by_cases h2 : den < 2 * r
    · rw [if_pos h2]
      exact ⟨by omega, by omega, fun h => by omega⟩
    · rw [if_neg h2]
      by_cases h3 : q % 2 = 0
      · rw [if_pos h3]
        exact ⟨by omega, by omega, fun _ => h3⟩
      · rw [if_neg h3]
        exact ⟨by omega, by omega, fun _ => by omega⟩

theorem roundToDouble_ne_nan (negative : Bool) (n d : Nat) :
    roundToDouble negative n d ≠ JsNumber.nan := by
  unfold roundToDouble
  split <;> simp

theorem decimalToNumber_ne_nan (negative : Bool) (m : Nat) (e : Int) :
    decimalToNumber negative m e ≠ JsNumber.nan := by
  unfold decimalToNumber
  split <;> exact roundToDouble_ne_nan _ _ _

theorem readNonDecimal_sound (cs : List Char) (n : JsNumber)
    (h : readNonDecimal cs = some n) :
    IsNonDecimalLiteral cs ∧ ∃ v, n = roundToDouble false v 1 := by
  unfold readNonDecimal at h
  split at h
  · rename_i z k d ds
    by_cases hz : z = '0'
    · simp only [hz, if_true] at h
      by_cases hx : k = 'x' ∨ k = 'X'
      · simp only [hx, if_true] at h
        by_cases hall : (d :: ds).all isHexDigit = true
        · simp only [hall, if_true, Option.some.injEq] at h
          exact ⟨⟨k, d :: ds, by rw [hz], by simp, Or.inl ⟨hx, hall⟩⟩, _, h.symm⟩
        · simp [hall] at h
      · simp only [hx, if_false] at h
        by_cases ho : k = 'o' ∨ k = 'O'
        · simp only [ho, if_true] at h
          by_cases hall : (d :: ds).all isOctalDigit = true
          · simp only [hall, if_true, Option.some.injEq] at h
            exact ⟨⟨k, d :: ds, by rw [hz], by simp, Or.inr (Or.inl ⟨ho, hall⟩)⟩, _, h.symm⟩
          · simp [hall] at h
        · simp only [ho, if_false] at h
          by_cases hb : k = 'b' ∨ k = 'B'
          · simp only [hb, if_true] at h
            by_cases hall : (d :: ds).all isBinaryDigit = true
            · simp only [hall, if_true, Option.some.injEq] at h
              exact ⟨⟨k, d :: ds, by rw [hz], by simp, Or.inr (Or.inr ⟨hb, hall⟩)⟩, _, h.symm⟩
            · simp [hall] at h
          · simp [hb] at h
    · simp [hz] at h
  · simp at h

theorem jsToNumber_trimmed (s : String) (htrim : trimEnd (trimStart s.data) = s.data)
    (hne : s.data ≠ []) :
    jsToNumber s =
      match readNonDecimal s.data with
      | some n => n
      | none =>
        match readDecimal s.data with
        | some (n, []) => n
        | _ => JsNumber.nan := by
  unfold jsToNumber
  simp only [htrim]
  have : s.data.isEmpty = false := by
    cases hd : s.data with
    | nil => exact absurd hd hne
    | cons _ _ => rfl
  simp [this]

theorem string_ne_empty (s : String) (h : s.data ≠ []) : s ≠ "" := by
  intro hs; rw [hs] at h; exact h rfl

theorem coerceValue_of_read (s : String) (n : JsNumber)
    (htrim : trimEnd (trimStart s.data) = s.data) (hstart : trimStart s.data = s.data)
    (hread : readDecimal s.data = some (n, [])) (hn : n ≠ JsNumber.nan) :
    coerceValue s = Value.num n := by
  have hne : s.data ≠ [] := by
    intro h; rw [h] at hread; simp [readDecimal, readUnsignedDecimal, readDigitsLiteral,
      infinityChars, List.isPrefixOf] at hread
  have hnan : jsIsNaN s = false := by
    unfold jsIsNaN
    rw [jsToNumber_trimmed s htrim hne]
    cases hnd : readNonDecimal s.data with
    | some n' =>
      obtain ⟨-, v, hv⟩ := readNonDecimal_sound _ _ hnd
      have hnn := roundToDouble_ne_nan false v 1
      rw [← hv] at hnn
      cases n' with
      | nan => exact absurd rfl hnn
      | finite _ _ _ => rfl
      | infinity _ => rfl
    | none =>
      simp only [hread]
  have hpf : jsParseFloat s = n := by
    unfold jsParseFloat
    rw [hstart, hread]
  unfold coerceValue
  simp [string_ne_empty s hne, hnan, hpf]

theorem coerceValue_of_not_read (s : String)
    (htrim : trimEnd (trimStart s.data) = s.data)
    (hnd : readNonDecimal s.data = none)
    (hread : ∀ n, readDecimal s.data ≠ some (n, [])) :
    coerceValue s = Value.str s := by
  by_cases hne : s.data = []
  · have : s = "" := by
      cases s with
      | mk d => simp only at hne; rw [hne]
    unfold coerceValue
    simp [this]
  · have hnan : jsIsNaN s = true := by
      unfold jsIsNaN
      rw [jsToNumber_trimmed s htrim hne, hnd]
      cases hr : readDecimal s.data with
      | none => rfl
      | some p =>
        obtain ⟨n, rest⟩ := p
        cases rest with
        | nil => exact absurd hr (hread n)
        | cons _ _ => rfl
    unfold coerceValue
    simp [hnan]

/-- C5 (as stated, refuted): the text `Infinity` is not a finite decimal
number (it is no decimal literal), yet it is stored as a number, the positive
infinity, and not as the string `Infinity`; likewise `-Infinity`. -/
theorem C5_infinity_counterexample :
    (∀ negative m e, ¬ IsDecimalLiteral (jsTrim "Infinity").data negative m e) ∧
    cellValue "Infinity" = Value.num (JsNumber.infinity false) ∧
    cellValue "Infinity" ≠ Value.str "Infinity" ∧
    cellValue " -Infinity " = Value.num (JsNumber.infinity true) := by
  refine ⟨?_, by decide, by decide, by decide⟩
  intro negative m e h
  have hdata : (jsTrim "Infinity").data = 'I' :: ['n', 'f', 'i', 'n', 'i', 't', 'y'] := by
    decide
  rw [hdata] at h
  rcases h with ⟨_, hu⟩ | ⟨_, r, hcs, _⟩ | ⟨_, r, hcs, _⟩
  · obtain ⟨c, r, hcs, hc⟩ := unsignedDecimal_head _ m e hu
    injection hcs with hhead _
    exact (mark_or_digit_ne c hc).1 hhead.symm
  · injection hcs with hhead _
    exact absurd hhead (by decide)
  · injection hcs with hhead _
    exact absurd hhead (by decide)

set_option exponentiation.threshold 500 in
/-- C5 (amended): with `s` the trimmed text of a cell, the value stored in the
record is: when `s` is a decimal literal (an optional sign, digits with an
optional fraction and exponent) of value `(-1)^negative * m * 10^e`, the
double nearest to that value (`decimalToNumber`: ties to even, the infinity of
that sign from `2^1024` on); when `s` is `Infinity` with an optional sign, the
infinity of that sign; and the string `s` unchanged when `s` is neither of
these nor a `0x`, `0o` or `0b` integer literal (in particular when `s` is
empty). The text `23.5` is stored as the number 23.5 (47/2) and `N/E` as the
string `N/E`; `9007199254740993` is stored as `2^53` and `1e400` as the
positive infinity. An infinite number leaves the page as `null`. -/
theorem C5_numeric_coercion (text : String) :
    (∀ negative m e, IsDecimalLiteral (jsTrim text).data negative m e →
      cellValue text = Value.num (decimalToNumber negative m e)) ∧
    (∀ negative, IsInfinityLiteral (jsTrim text).data negative →
      cellValue text = Value.num (JsNumber.infinity negative)) ∧
    ((∀ negative m e, ¬ IsDecimalLiteral (jsTrim text).data negative m e) →
      (∀ negative, ¬ IsInfinityLiteral (jsTrim text).data negative) →
      ¬ IsNonDecimalLiteral (jsTrim text).data →
      cellValue text = Value.str (jsTrim text)) ∧
    cellValue "23.5" = Value.num (JsNumber.finite false 47 (-1)) ∧
    cellValue "N/E" = Value.str "N/E" ∧
    cellValue "9007199254740993" = Value.num (JsNumber.finite false 1 53) ∧
    cellValue "1e400" = Value.num (JsNumber.infinity false) ∧
    (∀ negative, serializeValue (Value.num (JsNumber.infinity negative)) = Value.null) := by
  have htrim := jsTrim_data_trim text
  have hstart := jsTrim_data_trimStart text
  refine ⟨?_, ?_, ?_, by decide, by decide, by decide, by decide, fun _ => rfl⟩
  · intro negative m e h
    exact coerceValue_of_read (jsTrim text) _ htrim hstart
      (readDecimal_complete _ negative m e h) (decimalToNumber_ne_nan negative m e)
  · intro negative h
    exact coerceValue_of_read (jsTrim text) _ htrim hstart
      (readDecimal_infinity _ negative h) (by simp)
  · intro hdec hinf hnon
    apply coerceValue_of_not_read (jsTrim text) htrim
    · cases hnd : readNonDecimal (jsTrim text).data with
      | none => rfl
      | some n => exact absurd (readNonDecimal_sound _ n hnd).1 hnon
    · intro n hread
      rcases readDecimal_sound _ n hread with ⟨negative, m, e, _, h⟩ | ⟨negative, _, h⟩
      · exact hdec negative m e h
      · exact hinf negative h

theorem C5_numeric_coercion_witness :
    IsDecimalLiteral (jsTrim " -2.5e-1 ").data true 25 (-2) ∧
    cellValue " -2.5e-1 " = Value.num (decimalToNumber true 25 (-2)) ∧
    decimalToNumber true 25 (-2) = JsNumber.finite true 1 (-2) ∧
    IsInfinityLiteral (jsTrim "+Infinity").data false ∧
    cellValue "+Infinity" = Value.num (JsNumber.infinity false) ∧
    ¬ IsNonDecimalLiteral (jsTrim " N/E ").data ∧
    cellValue " N/E " = Value.str (jsTrim " N/E ") :=
  have hlit : IsDecimalLiteral (jsTrim " -2.5e-1 ").data true 25 (-2) :=
    Or.inr (Or.inr ⟨rfl, ['2', '.', '5', 'e', '-', '1'], by decide,
      ['2'], ['5'], ['e', '-', '1'], -1,
      by unfold IsDigits; decide, by unfold IsDigits; decide,
      Or.inr ⟨'e', ['1'], Or.inl rfl, by decide, by unfold IsDigits; decide,
        Or.inr (Or.inr ⟨rfl, by decide⟩)⟩,
      Or.inr ⟨rfl, Or.inl (by decide)⟩, by decide, by decide⟩)
  have hinf : IsInfinityLiteral (jsTrim "+Infinity").data false :=
    Or.inl ⟨rfl, Or.inr (by decide)⟩
  have hread : readDecimal (jsTrim " N/E ").data = none := by decide
  have hnodec : ∀ negative m e, ¬ IsDecimalLiteral (jsTrim " N/E ").data negative m e :=
    fun negative m e h => by
      have h1 := readDecimal_complete _ negative m e h
      rw [hread] at h1
      cases h1
  have hnoinf : ∀ negative, ¬ IsInfinityLiteral (jsTrim " N/E ").data negative :=
    fun negative h => by
      have h1 := readDecimal_infinity _ negative h
      rw [hread] at h1
      cases h1
  have hnonon : ¬ IsNonDecimalLiteral (jsTrim " N/E ").data :=
    fun h => by
      obtain ⟨k, ds, hcs, _⟩ := h
      have hdata : (jsTrim " N/E ").data = ['N', '/', 'E'] := by decide
      rw [hdata] at hcs
      injection hcs with hhead _
      exact absurd hhead (by decide)
  ⟨hlit, (C5_numeric_coercion " -2.5e-1 ").1 true 25 (-2) hlit, by decide,
   hinf, (C5_numeric_coercion "+Infinity").2.1 false hinf,
   hnonon, (C5_numeric_coercion " N/E ").2.2.1 hnodec hnoinf hnonon⟩

end INMET
